import Mathlib

/-!
# fastnet: multi-thread training coordinator and pattern-recognition driver

A shallow embedding of `fastnet/matlab/MTHelper.hxx` and of
`src/training/PatternRec.cxx`.

Conventions of the embedding.

* `REAL` is an arbitrary linearly ordered field: arithmetic on `REAL` values is
  exact, rounding is not modelled.  A division by zero does not produce a field
  element; its outcome is the separate value `FP.nonfinite`.
* `unsigned` is a 32 bit machine integer: sums and products of `unsigned`
  operands are reduced modulo `2 ^ 32`.
* The network is an external collaborator.  `applySupervisedInput` is a function
  from the sample it is applied to, to the error it returns (and, where the
  output is read, to the first output component).
* A pointer into a sample-major buffer is kept as the index of the sample it
  points at: `inData + k * inputSize` is sample `k`.
* Loops whose trip count is not fixed by their bounds take a fuel argument and
  return `none` when it is exhausted.
* The condition-variable handshakes are kept as the order of the coordinator's
  own actions; the scheduling of the worker threads is not modelled.
-/

/-- Number of values of the C++ type `unsigned`. -/
def UINT_RANGE : Nat := 2 ^ 32

/-- Outcome of a `REAL` computation in which a division may have had a zero
divisor: a finite value, or a non-finite one (an infinity or a NaN). -/
inductive FP (REAL : Type) where
  | fin (x : REAL) : FP REAL
  | nonfinite : FP REAL
deriving DecidableEq, Repr

namespace FP

variable {REAL : Type}

/-- Quotient `x / y` of finite operands; non-finite when the divisor is zero. -/
def div [DivisionRing REAL] [DecidableEq REAL] (x y : REAL) : FP REAL :=
  if y = 0 then nonfinite else fin (x / y)

/-- Sum; a non-finite operand gives a non-finite sum. -/
def add [Add REAL] : FP REAL → FP REAL → FP REAL
  | fin x, fin y => fin (x + y)
  | _, _ => nonfinite

/-- Product; a non-finite operand gives a non-finite product. -/
def mul [Mul REAL] : FP REAL → FP REAL → FP REAL
  | fin x, fin y => fin (x * y)
  | _, _ => nonfinite

end FP

namespace MT

/-- Parameter block of one worker thread (`struct ThreadParams`).  The network
replica and the data pointers are not stored: the replica is the error function
handed to the worker, the pointers are sample indices. -/
structure ThreadParams (REAL : Type) where
  id : Nat
  numEvents : Nat
  nThreads : Nat
  error : REAL
  finishThread : Bool
  threadReady : Bool
  analysisReady : Bool

/-- What a worker did after one wake-up from `safeWait` on its dispatch
channel. -/
inductive Wake (REAL : Type) where
  /-- The worker saw `finishThread` and called `pthread_exit`. -/
  | exited : Wake REAL
  /-- The worker ran its loop and signalled the result channel: the context it
  leaves, the samples given to `applySupervisedInput`, and the samples given to
  `calculateNewWeights`, both in call order. -/
  | reported (par : ThreadParams REAL) (applied updated : List Nat) : Wake REAL

variable {REAL : Type}

/-- The loop `for (unsigned i=0; i<par->numEvents; i+=par->nThreads)` of
`MTTrainNetwork` (`train = true`) and `MTValNetwork` (`train = false`), from the
state `(i, sample, error)`.  The counter `i` is an `unsigned` and wraps; `sample`
is the sample `input` and `target` point at, advanced by `nThreads` samples per
iteration (the element steps `inputStep`, `outputStep` are taken to fit
`unsigned`).  The training loop also hands the sample to
`calculateNewWeights`. -/
def workerLoop [Add REAL] (train : Bool) (err : Nat → REAL) (numEvents nThreads : Nat) :
    Nat → Nat → Nat → REAL → List Nat → List Nat → Option (REAL × List Nat × List Nat)
  | 0, _, _, _, _, _ => none
  | fuel + 1, i, sample, error, applied, updated =>
    if i < numEvents then
      workerLoop train err numEvents nThreads fuel ((i + nThreads) % UINT_RANGE)
        (sample + nThreads) (error + err sample) (applied ++ [sample])
        (if train then updated ++ [sample] else updated)
    else some (error, applied, updated)

/-- One wake-up of a worker: exit on `finishThread`, otherwise reset the error,
point at sample `id` and run the loop. -/
def wake [Add REAL] [Zero REAL] (train : Bool) (err : Nat → REAL) (fuel : Nat)
    (par : ThreadParams REAL) : Option (Wake REAL) :=
  if par.finishThread then some Wake.exited
  else
    match workerLoop train err par.numEvents par.nThreads fuel 0 par.id 0 [] [] with
    | none => none
    | some (e, applied, updated) => some (Wake.reported { par with error := e } applied updated)

/-- One wake-up of the training worker `MTTrainNetwork`. -/
def MTTrainNetwork [Add REAL] [Zero REAL] (err : Nat → REAL) (fuel : Nat)
    (par : ThreadParams REAL) : Option (Wake REAL) :=
  wake true err fuel par

/-- One wake-up of the validation worker `MTValNetwork`. -/
def MTValNetwork [Add REAL] [Zero REAL] (err : Nat → REAL) (fuel : Nat)
    (par : ThreadParams REAL) : Option (Wake REAL) :=
  wake false err fuel par

/-- Samples a worker applies the network to in one pass, `none` when the pass
does not end within the fuel or the worker exits instead. -/
def visited (w : Option (Wake REAL)) : Option (List Nat) :=
  match w with
  | some (Wake.reported _ applied _) => some applied
  | _ => none

/-- The `q` samples `id, id + nThreads, id + 2 * nThreads, ...`. -/
def stripe (id nThreads q : Nat) : List Nat :=
  (List.range q).map (fun k => id + k * nThreads)

namespace MTHelper

/-- Context of thread `i` as `createThreads` fills it.  The field `error` is
left unset by the source; it is reset by the worker before use. -/
def createThreads [Zero REAL] (nThreads numEvents : Nat) (i : Nat) : ThreadParams REAL :=
  { id := i, numEvents := numEvents, nThreads := nThreads, error := 0,
    finishThread := false, threadReady := false, analysisReady := false }

/-- Result collection of `MTHelper::trainNetwork` (the loop after the dispatch
broadcast and the return statement), on the contexts as the workers left them:
the returned value, and the replicas passed to `mainNet->addToGradient`, in call
order. -/
def trainNetwork [DivisionRing REAL] [DecidableEq REAL] (nThreads : Nat)
    (trnThPar : Nat → ThreadParams REAL) : FP REAL × List Nat :=
  let r := (List.range nThreads).foldl
    (fun (acc : REAL × List Nat) i =>
      (acc.1 + (trnThPar i).error, if i ≠ 0 then acc.2 ++ [i] else acc.2))
    ((0 : REAL), [])
  (FP.div r.1 ((trnThPar 0).numEvents : REAL), r.2)

/-- Result collection of `MTHelper::valNetwork`. -/
def valNetwork [DivisionRing REAL] [DecidableEq REAL] (nThreads : Nat)
    (valThPar : Nat → ThreadParams REAL) : FP REAL :=
  let gbError := (List.range nThreads).foldl
    (fun (acc : REAL) i => acc + (valThPar i).error) (0 : REAL)
  FP.div gbError ((valThPar 0).numEvents : REAL)

/-- Every worker `0 .. n-1` released by the dispatch broadcast runs one pass on
its context; `none` when one of them does not report. -/
def runWorkers [Add REAL] [Zero REAL] (train : Bool) (err : Nat → REAL) (fuel : Nat)
    (thPar : Nat → ThreadParams REAL) : Nat → Option (Nat → ThreadParams REAL)
  | 0 => some thPar
  | n + 1 =>
    match runWorkers train err fuel thPar n, wake train err fuel (thPar n) with
    | some done, some (Wake.reported par _ _) => some (Function.update done n par)
    | _, _ => none

/-- One call of `MTHelper::trainNetwork` on a helper built for `nThreads`
threads over `numEvents` events, together with the worker passes it waits for:
dispatch broadcast, one pass of every worker, result collection.  All replicas
are copies of the main network when they are dispatched, so one error function
serves every worker. -/
def trainEpoch [DivisionRing REAL] [DecidableEq REAL] (err : Nat → REAL) (fuel : Nat)
    (nThreads numEvents : Nat) : Option (FP REAL × List Nat) :=
  (runWorkers true err fuel (createThreads nThreads numEvents) nThreads).map
    (trainNetwork nThreads)

/-- One call of `MTHelper::valNetwork` together with the worker passes it waits
for. -/
def valEpoch [DivisionRing REAL] [DecidableEq REAL] (err : Nat → REAL) (fuel : Nat)
    (nThreads numEvents : Nat) : Option (FP REAL) :=
  (runWorkers false err fuel (createThreads nThreads numEvents) nThreads).map
    (valNetwork nThreads)

/-- One action of the coordinator while it tears the helper down. -/
inductive Step where
  /-- Assignment `trnThPar[i].finishThread = valThPar[i].finishThread = true`. -/
  | setFinish (i : Nat) : Step
  /-- Poll `waitCond` on the `threadReady` flag of training context `i`. -/
  | waitTrn (i : Nat) : Step
  /-- Poll `waitCond` on the `threadReady` flag of validation context `i`. -/
  | waitVal (i : Nat) : Step
  /-- Call `pthread_cond_broadcast(&trnProcRequest)`, with the `finishThread`
  flags of the training contexts `0 .. nThreads-1` at the time of the call. -/
  | broadcastTrn (finish : List Bool) : Step
  /-- Call `pthread_cond_broadcast(&valProcRequest)`, with the `finishThread`
  flags of the validation contexts at the time of the call. -/
  | broadcastVal (finish : List Bool) : Step
  /-- Call `pthread_join(trnThreads[i], &ret)`. -/
  | joinTrn (i : Nat) : Step
  /-- Call `pthread_join(valThreads[i], &ret)`. -/
  | joinVal (i : Nat) : Step
deriving DecidableEq, Repr

/-- Coordinator state during teardown: both context arrays and the actions
taken so far. -/
structure Teardown (REAL : Type) where
  trnThPar : Nat → ThreadParams REAL
  valThPar : Nat → ThreadParams REAL
  log : List Step

/-- Body of the loop of `~MTHelper` for thread `i`. -/
def destructorStep (nThreads : Nat) (s : Teardown REAL) (i : Nat) : Teardown REAL :=
  let trn := Function.update s.trnThPar i { s.trnThPar i with finishThread := true }
  let val := Function.update s.valThPar i { s.valThPar i with finishThread := true }
  { trnThPar := trn
    valThPar := val
    log := s.log ++
      [Step.setFinish i, Step.waitTrn i, Step.waitVal i,
       Step.broadcastTrn ((List.range nThreads).map (fun j => (trn j).finishThread)),
       Step.broadcastVal ((List.range nThreads).map (fun j => (val j).finishThread)),
       Step.joinTrn i, Step.joinVal i] }

/-- The loop `for (unsigned i=0; i<nThreads; i++)` of `~MTHelper`, on a helper
as its constructor built it. -/
def destructor [Zero REAL] (nThreads numTrnEvents numValEvents : Nat) : Teardown REAL :=
  (List.range nThreads).foldl (destructorStep nThreads)
    { trnThPar := createThreads nThreads numTrnEvents
      valThPar := createThreads nThreads numValEvents
      log := [] }

/-- Whether a step is a broadcast of the training dispatch channel. -/
def Step.isBroadcastTrn : Step → Bool
  | Step.broadcastTrn _ => true
  | _ => false

/-- Whether a step is a broadcast of the validation dispatch channel. -/
def Step.isBroadcastVal : Step → Bool
  | Step.broadcastVal _ => true
  | _ => false

end MTHelper

end MT

/-- Dimensions of one cell of the cell arrays given to the constructor of
`PatternRecognition`, as `mxGetM` and `mxGetN` report them: `M` rows (the event
dimension) and `N` columns (the events), values of type `unsigned`. -/
structure MxInfo where
  M : Nat
  N : Nat
deriving DecidableEq, Repr

/-- Data members of `PatternRecognition` (with `bestGoal` of its base class
`Training`).  The input buffers `inTrnList`, `inValList` are not stored: a
sample is named by its pattern and its position.  The class declaration is in
`PatternRec.h`; the counters `numPatterns`, `inputSize`, `outputSize` are taken
to be `unsigned`, as the event counts (`new unsigned [numPatterns]`) and the
loop counters they are compared with are. -/
structure PatternRecognition (REAL : Type) where
  useSP : Bool
  bestGoal : REAL
  numPatterns : Nat
  inputSize : Nat
  outputSize : Nat
  targList : List (List REAL)
  numTrnEvents : List Nat
  numValEvents : List Nat
  epochValOutputs : List (List REAL)

namespace PatternRecognition

variable {REAL : Type}

/-- Value of `outputSize` the constructor computes from `numPatterns`. -/
def outputSizeOf (numPatterns : Nat) : Nat :=
  if numPatterns = 2 then 1 else numPatterns

/-- Target block of class `i`: `new REAL [outputSize]`, the fill loop
`target[j] = -1`, then the store `target[i] = 1`.  The second component tells
whether that store fell inside the block; a store outside it leaves the block's
own slots as they were. -/
def mkTarget [One REAL] [Neg REAL] (outputSize i : Nat) : List REAL × Bool :=
  let target := List.replicate outputSize (-1 : REAL)
  (target.set i 1, decide (i < target.length))

/-- The loop `for (unsigned i=0; i<numPatterns; i++)` of the constructor, over
the remaining pairs of cells, from index `i`.  A fresh block of
`epochValOutputs` is shown filled with 0; `valNetwork` overwrites it before
`sp()` reads it. -/
def constructLoop [One REAL] [Neg REAL] [Zero REAL] :
    List (MxInfo × MxInfo) → Nat → PatternRecognition REAL →
      Except String (PatternRecognition REAL)
  | [], _, p => Except.ok p
  | (patTrnData, patValData) :: rest, i, p =>
    if patTrnData.M ≠ patValData.M then
      Except.error "Input training and validating events dimension does not match!"
    else if i ≠ 0 ∧ patTrnData.M ≠ p.inputSize then
      Except.error "Events dimension between patterns does not match!"
    else
      constructLoop rest (i + 1)
        { p with
          inputSize := patTrnData.M
          numTrnEvents := p.numTrnEvents ++ [patTrnData.N]
          numValEvents := p.numValEvents ++ [patValData.N]
          epochValOutputs :=
            if p.useSP then
              p.epochValOutputs ++
                [List.replicate ((p.outputSize * patValData.N) % UINT_RANGE) (0 : REAL)]
            else p.epochValOutputs
          targList := p.targList ++ [(mkTarget p.outputSize i).1] }

/-- The constructor `PatternRecognition::PatternRecognition(inTrn, inVal,
usingSP)`: `inTrn` and `inVal` list the dimensions of the cells; `bestGoal0` is
the value the base class `Training` gives `bestGoal`. -/
def construct [One REAL] [Neg REAL] [Zero REAL] (inTrn inVal : List MxInfo) (usingSP : Bool)
    (bestGoal0 : REAL) : Except String (PatternRecognition REAL) :=
  if inTrn.length ≠ inVal.length then
    Except.error "Number of training and validating patterns are not equal"
  else
    constructLoop (inTrn.zip inVal) 0
      { useSP := usingSP
        bestGoal := if usingSP then 0 else bestGoal0
        numPatterns := inTrn.length
        inputSize := 0
        outputSize := outputSizeOf inTrn.length
        targList := []
        numTrnEvents := []
        numValEvents := []
        epochValOutputs := [] }

/-- Counting loop of `sp()`: how many of `buf[0 .. n-1]` pass the test. -/
def effCount [Zero REAL] (buf : List REAL) (n : Nat) (test : REAL → Bool) : Nat :=
  ((List.range n).filter (fun i => test (buf.getD i 0))).length

/-- Efficiency `count / n` as `sp()` computes it; with `n = 0` the quotient is
`0. / 0.`, which is not a number. -/
def effic [LinearOrderedField REAL] (buf : List REAL) (n : Nat) (test : REAL → Bool) :
    FP REAL :=
  FP.div ((effCount buf n test : Nat) : REAL) (n : REAL)

/-- Score `((sigEffic + noiseEffic) / 2) * sqrt(sigEffic * noiseEffic)`. -/
def spScore [LinearOrderedField REAL] (sqrt : REAL → REAL) : FP REAL → FP REAL → FP REAL
  | FP.fin sigEffic, FP.fin noiseEffic =>
    FP.fin (((sigEffic + noiseEffic) / 2) * sqrt (sigEffic * noiseEffic))
  | _, _ => FP.nonfinite

/-- Score of `sp()` at the threshold `pos`. -/
def scoreAt [LinearOrderedField REAL] (sqrt : REAL → REAL) (signal : List REAL)
    (numSignalEvents : Nat) (noise : List REAL) (numNoiseEvents : Nat) (pos : REAL) : FP REAL :=
  spScore sqrt (effic signal numSignalEvents (fun x => decide (x ≥ pos)))
    (effic noise numNoiseEvents (fun x => decide (x < pos)))

/-- Statement `if (sp > maxSP) maxSP = sp`; the comparison is false when `sp`
is not a number. -/
def updateMax [LinearOrderedField REAL] (sp : FP REAL) (maxSP : REAL) : REAL :=
  match sp with
  | FP.fin v => if v > maxSP then v else maxSP
  | FP.nonfinite => maxSP

/-- The loop `for (REAL pos = noiseTarget; pos < signalTarget; pos += RESOLUTION)`
of `sp()` from the state `(pos, maxSP)`, with `RESOLUTION = 0.001`. -/
def spLoop [LinearOrderedField REAL] (sqrt : REAL → REAL) (signal : List REAL)
    (numSignalEvents : Nat) (noise : List REAL) (numNoiseEvents : Nat) (signalTarget : REAL) :
    Nat → REAL → REAL → Option REAL
  | 0, _, _ => none
  | fuel + 1, pos, maxSP =>
    if pos < signalTarget then
      spLoop sqrt signal numSignalEvents noise numNoiseEvents signalTarget fuel
        (pos + 1 / 1000)
        (updateMax (scoreAt sqrt signal numSignalEvents noise numNoiseEvents pos) maxSP)
    else some maxSP

/-- The method `PatternRecognition::sp()`; `sqrt` is the square root of the
math library. -/
def sp [LinearOrderedField REAL] (sqrt : REAL → REAL) (fuel : Nat)
    (p : PatternRecognition REAL) : Option REAL :=
  let TARG : Nat × Nat :=
    if (p.targList.getD 0 []).getD 0 0 > (p.targList.getD 1 []).getD 0 0 then (0, 1)
    else (1, 0)
  let TARG_SIGNAL := TARG.1
  let TARG_NOISE := TARG.2
  let signal := p.epochValOutputs.getD TARG_SIGNAL []
  let numSignalEvents := p.numValEvents.getD TARG_SIGNAL 0
  let noise := p.epochValOutputs.getD TARG_NOISE []
  let numNoiseEvents := p.numValEvents.getD TARG_NOISE 0
  let signalTarget := (p.targList.getD TARG_SIGNAL []).getD 0 0
  let noiseTarget := (p.targList.getD TARG_NOISE []).getD 0 0
  spLoop sqrt signal numSignalEvents noise numNoiseEvents signalTarget fuel noiseTarget (-1)

/-- Weighting factor `1. / static_cast<REAL>(numPatterns * numEvents)`; the
product is formed in `unsigned` arithmetic. -/
def wFactor [LinearOrderedField REAL] (numPatterns numEvents : Nat) : FP REAL :=
  FP.div 1 (((numPatterns * numEvents) % UINT_RANGE : Nat) : REAL)

/-- Body of the pattern loop of `trainNetwork` for pattern `pat`: the value of
`gbError` after the events of the pattern.  `net pat i` is the error
`applySupervisedInput` returns on event `i` of the pattern; the call of
`calculateNewWeights` acts on the network only. -/
def trainPattern [LinearOrderedField REAL] (net : Nat → Nat → REAL)
    (p : PatternRecognition REAL) (pat : Nat) (gbError : FP REAL) : FP REAL :=
  let w := wFactor p.numPatterns (p.numTrnEvents.getD pat 0)
  (List.range (p.numTrnEvents.getD pat 0)).foldl
    (fun g i => FP.add g (FP.mul w (FP.fin (net pat i)))) gbError

/-- The method `PatternRecognition::trainNetwork(net)`. -/
def trainNetwork [LinearOrderedField REAL] (net : Nat → Nat → REAL)
    (p : PatternRecognition REAL) : FP REAL :=
  (List.range p.numPatterns).foldl (fun g pat => trainPattern net p pat g) (FP.fin 0)

/-- Body of the pattern loop of `valNetwork` for pattern `pat`: `gbError` and
the object after the events of the pattern.  `net pat i` is the error and the
first output component `applySupervisedInput` gives on event `i`. -/
def valPattern [LinearOrderedField REAL] (net : Nat → Nat → REAL × REAL)
    (pat : Nat) (s : FP REAL × PatternRecognition REAL) : FP REAL × PatternRecognition REAL :=
  let w := wFactor s.2.numPatterns (s.2.numValEvents.getD pat 0)
  (List.range (s.2.numValEvents.getD pat 0)).foldl
    (fun (t : FP REAL × PatternRecognition REAL) i =>
      (FP.add t.1 (FP.mul w (FP.fin (net pat i).1)),
       if t.2.useSP then
         { t.2 with
           epochValOutputs :=
             t.2.epochValOutputs.set pat ((t.2.epochValOutputs.getD pat []).set i (net pat i).2) }
       else t.2))
    s

/-- The method `PatternRecognition::valNetwork(net)`: the returned value and the
object it leaves; `none` when the scan of `sp()` does not end within the fuel. -/
def valNetwork [LinearOrderedField REAL] (sqrt : REAL → REAL) (fuel : Nat)
    (net : Nat → Nat → REAL × REAL) (p : PatternRecognition REAL) :
    Option (FP REAL × PatternRecognition REAL) :=
  let s := (List.range p.numPatterns).foldl (fun t pat => valPattern net pat t) (FP.fin 0, p)
  if s.2.useSP then (sp sqrt fuel s.2).map (fun v => (FP.fin v, s.2))
  else some s

/-- The method `PatternRecognition::isBestNetwork(currError)`: the returned
flag and the object it leaves.  `base` is `Training::isBestNetwork`. -/
def isBestNetwork [LinearOrderedField REAL]
    (base : PatternRecognition REAL → REAL → Bool × PatternRecognition REAL)
    (p : PatternRecognition REAL) (currError : REAL) : Bool × PatternRecognition REAL :=
  if p.useSP then
    if currError > p.bestGoal then (true, { p with bestGoal := currError })
    else (false, p)
  else base p currError

end PatternRecognition



/-! ## The multi-thread helper -/

namespace MT

variable {REAL : Type}

theorem workerLoop_exact [AddCommMonoid REAL] (train : Bool) (err : Nat → REAL)
    (numEvents nThreads : Nat) (hT : 0 < nThreads) (hN : numEvents < UINT_RANGE) :
    ∀ (q fuel i sample : Nat) (error : REAL) (applied updated : List Nat),
      i + q * nThreads = numEvents → q < fuel →
      workerLoop train err numEvents nThreads fuel i sample error applied updated =
        some (error + ((List.range q).map (fun k => err (sample + k * nThreads))).sum,
          applied ++ (List.range q).map (fun k => sample + k * nThreads),
          if train then updated ++ (List.range q).map (fun k => sample + k * nThreads)
          else updated) := by
  intro q
  induction q with
  | zero =>
    intro fuel i sample error applied updated hi hf
    obtain ⟨f, rfl⟩ : ∃ f, fuel = f + 1 := ⟨fuel - 1, by omega⟩
    have : ¬ i < numEvents := by omega
    cases train <;> simp [workerLoop, this]
  | succ q ih =>
    intro fuel i sample error applied updated hi hf
    obtain ⟨f, rfl⟩ : ∃ f, fuel = f + 1 := ⟨fuel - 1, by omega⟩
    have hmul : (q + 1) * nThreads = q * nThreads + nThreads := by ring
    have hlt : i < numEvents := by omega
    have hwrap : (i + nThreads) % UINT_RANGE = i + nThreads :=
      Nat.mod_eq_of_lt (by omega)
    rw [workerLoop, if_pos hlt, hwrap,
      ih f (i + nThreads) (sample + nThreads) _ _ _ (by omega) (by omega)]
    have hidx : ∀ k, sample + nThreads + k * nThreads = sample + (k + 1) * nThreads := by
      intro k; ring
    simp only [hidx]
    rw [List.range_succ_eq_map q]
    cases train <;>
      simp [List.map_map, Function.comp_def, add_assoc]

/-- One pass of a worker when `nThreads` divides `numEvents`. -/
theorem wake_of_dvd [AddCommMonoid REAL] (train : Bool) (err : Nat → REAL)
    (numEvents nThreads : Nat) (hT : 0 < nThreads) (hdvd : nThreads ∣ numEvents)
    (hN : numEvents < UINT_RANGE) (fuel id : Nat) (hf : numEvents / nThreads < fuel) :
    wake train err fuel (MTHelper.createThreads nThreads numEvents id) =
      some (Wake.reported
        { (MTHelper.createThreads nThreads numEvents id : ThreadParams REAL) with
          error := ((stripe id nThreads (numEvents / nThreads)).map err).sum }
        (stripe id nThreads (numEvents / nThreads))
        (if train then stripe id nThreads (numEvents / nThreads) else [])) := by
  have h := workerLoop_exact train err numEvents nThreads hT hN (numEvents / nThreads) fuel 0 id
    0 [] [] (by simpa using Nat.div_mul_cancel hdvd) hf
  simp only [wake, MTHelper.createThreads, Bool.false_eq_true, if_false, h]
  simp [stripe, List.map_map, Function.comp_def]

/-- Membership in a stripe. -/
theorem mem_stripe {id nThreads q a : Nat} :
    a ∈ stripe id nThreads q ↔ ∃ k, k < q ∧ id + k * nThreads = a := by
  simp [stripe]

/-- The stripes of the threads `0 .. nThreads-1`, one after the other, list
every sample below `nThreads * q` once. -/
theorem stripes_perm (nThreads q : Nat) (hT : 0 < nThreads) :
    ((List.range nThreads).flatMap (fun id => stripe id nThreads q)).Perm
      (List.range (nThreads * q)) := by
  have hnd : ((List.range nThreads).flatMap (fun id => stripe id nThreads q)).Nodup := by
    rw [List.nodup_flatMap]
    refine ⟨fun id _ => ?_, ?_⟩
    · refine (List.nodup_range q).map ?_
      intro a b hab
      have : a * nThreads = b * nThreads := by simpa using hab
      exact Nat.eq_of_mul_eq_mul_right hT this
    · refine (List.nodup_range nThreads).pairwise_of_forall_ne ?_
      intro a ha b hb hne
      simp only [Function.onFun, List.disjoint_left]
      intro x hxa hxb
      rw [mem_stripe] at hxa hxb
      obtain ⟨k, _, rfl⟩ := hxa
      obtain ⟨k', _, hk'⟩ := hxb
      rw [List.mem_range] at ha hb
      apply hne
      have h1 : (a + k * nThreads) % nThreads = a := by
        rw [Nat.add_mul_mod_self_right, Nat.mod_eq_of_lt ha]
      have h2 : (b + k' * nThreads) % nThreads = b := by
        rw [Nat.add_mul_mod_self_right, Nat.mod_eq_of_lt hb]
      rw [← h1, ← h2, hk']
  rw [List.perm_ext_iff_of_nodup hnd (List.nodup_range _)]
  intro a
  simp only [List.mem_flatMap, List.mem_range, mem_stripe]
  constructor
  · rintro ⟨id, hid, k, hk, rfl⟩
    calc id + k * nThreads < nThreads + k * nThreads := by omega
      _ = nThreads * (k + 1) := by ring
      _ ≤ nThreads * q := Nat.mul_le_mul_left _ hk
  · intro ha
    refine ⟨a % nThreads, Nat.mod_lt _ hT, a / nThreads, ?_, Nat.mod_add_div' a nThreads⟩
    exact Nat.div_lt_of_lt_mul ha

/-- Sum of the per-thread sums over the stripes is the sum over all samples. -/
theorem sum_stripes [AddCommMonoid REAL] (err : Nat → REAL) (nThreads q : Nat)
    (hT : 0 < nThreads) :
    ((List.range nThreads).map (fun id => ((stripe id nThreads q).map err).sum)).sum =
      ((List.range (nThreads * q)).map err).sum := by
  rw [← ((stripes_perm nThreads q hT).map err).sum_eq, List.flatMap_def, List.map_flatten,
    List.sum_flatten, List.map_map, List.map_map]
  rfl

namespace MTHelper

/-- All workers report when `nThreads` divides `numEvents`. -/
theorem runWorkers_of_dvd [AddCommMonoid REAL] (train : Bool) (err : Nat → REAL)
    (numEvents nThreads : Nat) (hT : 0 < nThreads) (hdvd : nThreads ∣ numEvents)
    (hN : numEvents < UINT_RANGE) (fuel : Nat) (hf : numEvents / nThreads < fuel) (n : Nat) :
    ∃ done, runWorkers train err fuel (createThreads nThreads numEvents) n = some done ∧
      (∀ i, (done i).numEvents = numEvents) ∧
      ∀ i, i < n →
        (done i).error = ((stripe i nThreads (numEvents / nThreads)).map err).sum := by
  induction n with
  | zero => exact ⟨_, rfl, fun _ => rfl, fun i hi => absurd hi (Nat.not_lt_zero i)⟩
  | succ n ih =>
    obtain ⟨done, hdone, hnum, herr⟩ := ih
    refine ⟨Function.update done n
      { (createThreads nThreads numEvents n : ThreadParams REAL) with
        error := ((stripe n nThreads (numEvents / nThreads)).map err).sum }, ?_, ?_, ?_⟩
    · rw [runWorkers, hdone, wake_of_dvd train err numEvents nThreads hT hdvd hN fuel n hf]
    · intro i
      by_cases hi : i = n
      · subst hi; simp [createThreads]
      · simp [Function.update_noteq hi, hnum]
    · intro i hi
      by_cases hin : i = n
      · subst hin; simp
      · rw [Function.update_noteq hin]
        exact herr i (by omega)

/-- Closed form of the collection loop of `trainNetwork`. -/
theorem trainNetwork_eq [DivisionRing REAL] [DecidableEq REAL] (nThreads : Nat)
    (trnThPar : Nat → ThreadParams REAL) :
    trainNetwork nThreads trnThPar =
      (FP.div ((List.range nThreads).map (fun i => (trnThPar i).error)).sum
        ((trnThPar 0).numEvents : REAL), List.range' 1 (nThreads - 1)) := by
  have key : ∀ n, (List.range n).foldl
      (fun (acc : REAL × List Nat) i =>
        (acc.1 + (trnThPar i).error, if i ≠ 0 then acc.2 ++ [i] else acc.2))
      ((0 : REAL), []) =
      (((List.range n).map (fun i => (trnThPar i).error)).sum, List.range' 1 (n - 1)) := by
    intro n
    induction n with
    | zero => simp
    | succ n ih =>
      rw [List.range_succ, List.foldl_append, ih]
      cases n with
      | zero => simp
      | succ m =>
        simp [List.range'_concat]
        omega
  simp only [trainNetwork, key]

/-- Closed form of the collection loop of `valNetwork`. -/
theorem valNetwork_eq [DivisionRing REAL] [DecidableEq REAL] (nThreads : Nat)
    (valThPar : Nat → ThreadParams REAL) :
    valNetwork nThreads valThPar =
      FP.div ((List.range nThreads).map (fun i => (valThPar i).error)).sum
        ((valThPar 0).numEvents : REAL) := by
  have key : ∀ n, (List.range n).foldl
      (fun (acc : REAL) i => acc + (valThPar i).error) (0 : REAL) =
      ((List.range n).map (fun i => (valThPar i).error)).sum := by
    intro n
    induction n with
    | zero => simp
    | succ n ih => rw [List.range_succ, List.foldl_append, ih]; simp
  simp only [valNetwork, key]

/-- Sum of the errors the contexts hold after every worker reported. -/
theorem sum_errors_of_dvd [AddCommMonoid REAL] (err : Nat → REAL) (numEvents nThreads : Nat)
    (hT : 0 < nThreads) (hdvd : nThreads ∣ numEvents) (done : Nat → ThreadParams REAL)
    (herr : ∀ i, i < nThreads →
      (done i).error = ((stripe i nThreads (numEvents / nThreads)).map err).sum) :
    ((List.range nThreads).map (fun i => (done i).error)).sum =
      ((List.range numEvents).map err).sum := by
  have h1 : (List.range nThreads).map (fun i => (done i).error) =
      (List.range nThreads).map
        (fun i => ((stripe i nThreads (numEvents / nThreads)).map err).sum) :=
    List.map_congr_left (fun i hi => herr i (List.mem_range.1 hi))
  rw [h1, sum_stripes err nThreads (numEvents / nThreads) hT, Nat.mul_div_cancel' hdvd]

/-- A training epoch over a number of events the thread count divides returns
the mean of the per-sample errors and merges the replicas `1 .. nThreads-1`. -/
theorem trainEpoch_of_dvd [LinearOrderedField REAL] (err : Nat → REAL)
    (nThreads numEvents fuel : Nat) (hT : 1 ≤ nThreads) (hdvd : nThreads ∣ numEvents)
    (hN : numEvents < UINT_RANGE) (hf : numEvents / nThreads < fuel) :
    trainEpoch err fuel nThreads numEvents =
      some (FP.div ((List.range numEvents).map err).sum (numEvents : REAL),
        List.range' 1 (nThreads - 1)) := by
  obtain ⟨done, hdone, hnum, herr⟩ :=
    runWorkers_of_dvd true err numEvents nThreads hT hdvd hN fuel hf nThreads
  rw [trainEpoch, hdone, Option.map_some', trainNetwork_eq, hnum 0,
    sum_errors_of_dvd err numEvents nThreads hT hdvd done herr]

/-- A validation epoch over a number of events the thread count divides returns
the mean of the per-sample errors. -/
theorem valEpoch_of_dvd [LinearOrderedField REAL] (err : Nat → REAL)
    (nThreads numEvents fuel : Nat) (hT : 1 ≤ nThreads) (hdvd : nThreads ∣ numEvents)
    (hN : numEvents < UINT_RANGE) (hf : numEvents / nThreads < fuel) :
    valEpoch err fuel nThreads numEvents =
      some (FP.div ((List.range numEvents).map err).sum (numEvents : REAL)) := by
  obtain ⟨done, hdone, hnum, herr⟩ :=
    runWorkers_of_dvd false err numEvents nThreads hT hdvd hN fuel hf nThreads
  rw [valEpoch, hdone, Option.map_some', valNetwork_eq, hnum 0,
    sum_errors_of_dvd err numEvents nThreads hT hdvd done herr]

end MTHelper

/-- C1: striped partitioning.  With `nThreads >= 1` dividing `numEvents`, the
passes of the training workers and of the validation workers `0 .. nThreads-1`
all finish, and the samples they visit, thread after thread, are a
rearrangement of `0 .. numEvents-1`: no sample is visited twice, by one thread or by two, every
visited sample is below `numEvents`, and every sample below `numEvents` is
visited. -/
theorem striped_partition_covers_once [LinearOrderedField REAL] (err : Nat → REAL)
    (nThreads numEvents : Nat) (hT : 1 ≤ nThreads) (hdvd : nThreads ∣ numEvents)
    (hN : numEvents < UINT_RANGE) :
    ∃ vis : Nat → List Nat,
      (∀ id, id < nThreads →
        visited (MTTrainNetwork err (numEvents + 1)
          (MTHelper.createThreads nThreads numEvents id)) = some (vis id) ∧
        visited (MTValNetwork err (numEvents + 1)
          (MTHelper.createThreads nThreads numEvents id)) = some (vis id)) ∧
      ((List.range nThreads).flatMap vis).Perm (List.range numEvents) ∧
      ((List.range nThreads).flatMap vis).Nodup ∧
      (∀ k, k < numEvents → ∃ id, id < nThreads ∧ k ∈ vis id) ∧
      (∀ id k, id < nThreads → k ∈ vis id → k < numEvents) := by
  have hf : numEvents / nThreads < numEvents + 1 :=
    Nat.lt_succ_of_le (Nat.div_le_self _ _)
  have hperm : ((List.range nThreads).flatMap
      (fun id => stripe id nThreads (numEvents / nThreads))).Perm (List.range numEvents) := by
    have h := stripes_perm nThreads (numEvents / nThreads) hT
    rwa [Nat.mul_div_cancel' hdvd] at h
  refine ⟨fun id => stripe id nThreads (numEvents / nThreads), ?_, hperm,
    hperm.nodup_iff.2 (List.nodup_range _), ?_, ?_⟩
  · intro id _
    constructor
    · rw [MTTrainNetwork, wake_of_dvd true err numEvents nThreads hT hdvd hN _ id hf]
      rfl
    · rw [MTValNetwork, wake_of_dvd false err numEvents nThreads hT hdvd hN _ id hf]
      rfl
  · intro k hk
    have hmem : k ∈ (List.range nThreads).flatMap
        (fun id => stripe id nThreads (numEvents / nThreads)) :=
      hperm.mem_iff.2 (List.mem_range.2 hk)
    obtain ⟨id, hid, hkid⟩ := List.mem_flatMap.1 hmem
    exact ⟨id, List.mem_range.1 hid, hkid⟩
  · intro id k hid hk
    exact List.mem_range.1
      (hperm.mem_iff.1 (List.mem_flatMap.2 ⟨id, List.mem_range.2 hid, hk⟩))

/-- Instance of C1 with two threads and four events. -/
theorem striped_partition_covers_once_witness :
    1 ≤ 2 ∧ 2 ∣ 4 ∧ 4 < UINT_RANGE ∧
    ∃ vis : Nat → List Nat,
      (∀ id, id < 2 →
        visited (MTTrainNetwork (fun _ => (0 : ℚ)) (4 + 1)
          (MTHelper.createThreads 2 4 id)) = some (vis id) ∧
        visited (MTValNetwork (fun _ => (0 : ℚ)) (4 + 1)
          (MTHelper.createThreads 2 4 id)) = some (vis id)) ∧
      ((List.range 2).flatMap vis).Perm (List.range 4) ∧
      ((List.range 2).flatMap vis).Nodup ∧
      (∀ k, k < 4 → ∃ id, id < 2 ∧ k ∈ vis id) ∧
      (∀ id k, id < 2 → k ∈ vis id → k < 4) :=
  ⟨by decide, by decide, by norm_num [UINT_RANGE],
    striped_partition_covers_once (fun _ => (0 : ℚ)) 2 4 (by decide) (by decide)
      (by norm_num [UINT_RANGE])⟩

/-- C2 (failing input): two threads over three events.  Thread 1 runs two
iterations and applies the network to sample 3, which is past the last event;
the epoch then returns the sum over the samples 0, 2, 1, 3 divided by 3.  With
an error of 0 on the three events and 1 on what lies behind them the training
epoch and the validation epoch return 1/3, the mean over the events is 0. -/
theorem epoch_ragged_reads_past_end :
    visited (MTTrainNetwork (fun k => if k < 3 then (0 : ℚ) else 1) 3
      (MTHelper.createThreads 2 3 1)) = some [1, 3] ∧
    MTHelper.trainEpoch (fun k => if k < 3 then (0 : ℚ) else 1) 3 2 3 =
      some (FP.fin (1 / 3), [1]) ∧
    MTHelper.valEpoch (fun k => if k < 3 then (0 : ℚ) else 1) 3 2 3 = some (FP.fin (1 / 3)) ∧
    FP.div (((List.range 3).map (fun k => if k < 3 then (0 : ℚ) else 1)).sum) ((3 : Nat) : ℚ) =
      FP.fin 0 := by
  refine ⟨?_, ?_, ?_, ?_⟩
  · simp [visited, MTTrainNetwork, wake, MTHelper.createThreads, workerLoop, UINT_RANGE]
  · simp [MTHelper.trainEpoch, MTHelper.runWorkers, wake, MTHelper.createThreads,
      workerLoop, UINT_RANGE, MTHelper.trainNetwork, FP.div, List.range_succ, Function.update]
  · simp [MTHelper.valEpoch, MTHelper.runWorkers, wake, MTHelper.createThreads,
      workerLoop, UINT_RANGE, MTHelper.valNetwork, FP.div, List.range_succ, Function.update]
  · simp [FP.div, List.range_succ]

/-- C8: gradient merge.  Whatever the workers reported, the collection loop of
`trainNetwork` passes to `addToGradient` the replicas `1, 2, .., nThreads-1` in
this order: `nThreads - 1` calls, none for replica 0, each replica once, in
ascending order; so does every call of `trainNetwork` whose workers all report.
With 4 threads, 400 events and a per-sample error of zero the call returns,
merges the replicas 1, 2, 3 and gives 0. -/
theorem gradient_merge_ascending (REAL : Type) [LinearOrderedField REAL] :
    (∀ (nThreads : Nat) (trnThPar : Nat → ThreadParams REAL),
      (MTHelper.trainNetwork nThreads trnThPar).2 = List.range' 1 (nThreads - 1) ∧
      (MTHelper.trainNetwork nThreads trnThPar).2.length = nThreads - 1 ∧
      0 ∉ (MTHelper.trainNetwork nThreads trnThPar).2 ∧
      (MTHelper.trainNetwork nThreads trnThPar).2.Nodup ∧
      (MTHelper.trainNetwork nThreads trnThPar).2.Pairwise (fun a b => a < b) ∧
      (∀ i, i ∈ (MTHelper.trainNetwork nThreads trnThPar).2 ↔ 1 ≤ i ∧ i < nThreads)) ∧
    (∀ (err : Nat → REAL) (fuel nThreads numEvents : Nat) (r : FP REAL × List Nat),
      MTHelper.trainEpoch err fuel nThreads numEvents = some r →
        r.2 = List.range' 1 (nThreads - 1)) ∧
    MTHelper.trainEpoch (fun _ => (0 : REAL)) 101 4 400 = some (FP.fin 0, [1, 2, 3]) := by
  refine ⟨?_, ?_, ?_⟩
  · intro nThreads trnThPar
    rw [MTHelper.trainNetwork_eq]
    refine ⟨rfl, by simp, by simp, List.nodup_range' _ _, ?_, ?_⟩
    · exact List.pairwise_lt_range' 1 (nThreads - 1)
    · intro i
      simp only [List.mem_range'_1]
      omega
  · intro err fuel nThreads numEvents r hr
    rw [MTHelper.trainEpoch, Option.map_eq_some'] at hr
    obtain ⟨done, _, hdone⟩ := hr
    rw [← hdone, MTHelper.trainNetwork_eq]
  · rw [MTHelper.trainEpoch_of_dvd (fun _ => (0 : REAL)) 4 400 101 (by decide) (by decide)
      (by norm_num [UINT_RANGE]) (by decide)]
    have hsum : ∀ n : Nat, ((List.range n).map (fun _ => (0 : REAL))).sum = 0 := by
      intro n; simp
    have h400 : ((400 : Nat) : REAL) ≠ 0 := by norm_num
    rw [hsum, FP.div, if_neg h400, zero_div]
    rfl

/-- Each turn of the teardown loop adds one broadcast of the training dispatch
channel to the log. -/
theorem destructor_loop_broadcasts (nThreads : Nat) :
    ∀ (l : List Nat) (s : MTHelper.Teardown REAL),
      (((l.foldl (MTHelper.destructorStep nThreads) s).log.filter
        MTHelper.Step.isBroadcastTrn).length =
        (s.log.filter MTHelper.Step.isBroadcastTrn).length + l.length) := by
  intro l
  induction l with
  | nil => intro s; simp
  | cons i rest ih =>
    intro s
    rw [List.foldl_cons, ih]
    simp [MTHelper.destructorStep, MTHelper.Step.isBroadcastTrn]
    omega

/-- Teardown of a helper with `nThreads` threads broadcasts the training
dispatch channel `nThreads` times. -/
theorem destructor_broadcast_count [Zero REAL] (nThreads numTrnEvents numValEvents : Nat) :
    (((MTHelper.destructor nThreads numTrnEvents numValEvents : MTHelper.Teardown REAL).log.filter
      MTHelper.Step.isBroadcastTrn).length = nThreads) := by
  rw [MTHelper.destructor, destructor_loop_broadcasts]
  simp

/-- C4 (failing input): teardown of a helper with two threads.  The coordinator
broadcasts each dispatch channel inside the per-thread loop: twice, and the
first time while `finishThread` of context 1 is still false; a worker 1 released
by that broadcast does not exit, it runs its loop. -/
theorem destructor_broadcasts_per_thread :
    (MTHelper.destructor 2 4 4 : MTHelper.Teardown ℚ).log =
      [MTHelper.Step.setFinish 0, MTHelper.Step.waitTrn 0, MTHelper.Step.waitVal 0,
       MTHelper.Step.broadcastTrn [true, false], MTHelper.Step.broadcastVal [true, false],
       MTHelper.Step.joinTrn 0, MTHelper.Step.joinVal 0,
       MTHelper.Step.setFinish 1, MTHelper.Step.waitTrn 1, MTHelper.Step.waitVal 1,
       MTHelper.Step.broadcastTrn [true, true], MTHelper.Step.broadcastVal [true, true],
       MTHelper.Step.joinTrn 1, MTHelper.Step.joinVal 1] ∧
    ((MTHelper.destructor 2 4 4 : MTHelper.Teardown ℚ).log.filter
      MTHelper.Step.isBroadcastTrn).length = 2 ∧
    ((MTHelper.destructor 2 4 4 : MTHelper.Teardown ℚ).log.filter
      MTHelper.Step.isBroadcastVal).length = 2 ∧
    MTTrainNetwork (fun _ => (0 : ℚ)) 3
      ((MTHelper.destructorStep 2
        ({ trnThPar := MTHelper.createThreads 2 4, valThPar := MTHelper.createThreads 2 4,
           log := [] } : MTHelper.Teardown ℚ) 0).trnThPar 1) =
      some (Wake.reported
        { id := 1, numEvents := 4, nThreads := 2, error := (0 : ℚ), finishThread := false,
          threadReady := false, analysisReady := false } [1, 3] [1, 3]) := by
  have hlog : (MTHelper.destructor 2 4 4 : MTHelper.Teardown ℚ).log =
      [MTHelper.Step.setFinish 0, MTHelper.Step.waitTrn 0, MTHelper.Step.waitVal 0,
       MTHelper.Step.broadcastTrn [true, false], MTHelper.Step.broadcastVal [true, false],
       MTHelper.Step.joinTrn 0, MTHelper.Step.joinVal 0,
       MTHelper.Step.setFinish 1, MTHelper.Step.waitTrn 1, MTHelper.Step.waitVal 1,
       MTHelper.Step.broadcastTrn [true, true], MTHelper.Step.broadcastVal [true, true],
       MTHelper.Step.joinTrn 1, MTHelper.Step.joinVal 1] := by
    simp [MTHelper.destructor, MTHelper.destructorStep, MTHelper.createThreads,
      List.range_succ, Function.update]
  refine ⟨hlog, ?_, ?_, ?_⟩
  · rw [hlog]; rfl
  · rw [hlog]; rfl
  · simp [MTTrainNetwork, wake, MTHelper.destructorStep, MTHelper.createThreads, workerLoop,
      UINT_RANGE, Function.update]

end MT

/-! ## The pattern-recognition driver -/

namespace PatternRecognition

variable {REAL : Type}

/-- What the constructor loop leaves, when it ends without an exception. -/
theorem constructLoop_ok [LinearOrderedField REAL] :
    ∀ (cells : List (MxInfo × MxInfo)) (i : Nat) (p r : PatternRecognition REAL),
      constructLoop cells i p = Except.ok r →
      r.useSP = p.useSP ∧ r.bestGoal = p.bestGoal ∧ r.numPatterns = p.numPatterns ∧
      r.outputSize = p.outputSize ∧
      r.targList = p.targList ++
        (List.range' i cells.length).map (fun j => (mkTarget p.outputSize j).1) ∧
      r.numTrnEvents = p.numTrnEvents ++ cells.map (fun c => c.1.N) ∧
      r.numValEvents = p.numValEvents ++ cells.map (fun c => c.2.N) := by
  intro cells
  induction cells with
  | nil =>
    intro i p r h
    simp only [constructLoop, Except.ok.injEq] at h
    subst h
    simp
  | cons c rest ih =>
    intro i p r h
    obtain ⟨patTrnData, patValData⟩ := c
    rw [constructLoop] at h
    by_cases h1 : patTrnData.M ≠ patValData.M
    · rw [if_pos h1] at h; cases h
    rw [if_neg h1] at h
    by_cases h2 : i ≠ 0 ∧ patTrnData.M ≠ p.inputSize
    · rw [if_pos h2] at h; cases h
    rw [if_neg h2] at h
    obtain ⟨a1, a2, a3, a4, a5, a6, a7⟩ := ih (i + 1) _ r h
    refine ⟨a1, a2, a3, a4, ?_, ?_, ?_⟩
    · rw [a5]; simp [List.range'_succ]
    · rw [a6]; simp
    · rw [a7]; simp

/-- What the constructor builds, when it ends without an exception. -/
theorem construct_ok [LinearOrderedField REAL] (inTrn inVal : List MxInfo) (usingSP : Bool)
    (bestGoal0 : REAL) (p : PatternRecognition REAL)
    (h : construct inTrn inVal usingSP bestGoal0 = Except.ok p) :
    p.useSP = usingSP ∧ p.bestGoal = (if usingSP then 0 else bestGoal0) ∧
    p.numPatterns = inTrn.length ∧ p.outputSize = outputSizeOf inTrn.length ∧
    p.targList =
      (List.range inTrn.length).map (fun j => (mkTarget (outputSizeOf inTrn.length) j).1) ∧
    p.numTrnEvents = inTrn.map (fun c => c.N) ∧
    p.numValEvents = inVal.map (fun c => c.N) := by
  rw [construct] at h
  by_cases hlen : inTrn.length ≠ inVal.length
  · rw [if_pos hlen] at h; cases h
  rw [if_neg hlen] at h
  have hlen' : inTrn.length = inVal.length := not_not.1 hlen
  obtain ⟨a1, a2, a3, a4, a5, a6, a7⟩ := constructLoop_ok _ 0 _ p h
  refine ⟨a1, a2, a3, a4, ?_, ?_, ?_⟩
  · rw [a5]
    simp [List.length_zip, ← hlen', List.range_eq_range']
  · rw [a6]
    simp only [List.nil_append]
    have hz : (inTrn.zip inVal).map (fun c => c.1.N) =
        ((inTrn.zip inVal).map Prod.fst).map (fun c => c.N) := by
      rw [List.map_map]; rfl
    rw [hz, List.map_fst_zip]
    exact le_of_eq hlen'
  · rw [a7]
    simp only [List.nil_append]
    have hz : (inTrn.zip inVal).map (fun c => c.2.N) =
        ((inTrn.zip inVal).map Prod.snd).map (fun c => c.N) := by
      rw [List.map_map]; rfl
    rw [hz, List.map_snd_zip]
    exact le_of_eq hlen'.symm

/-- The target block of a class when the store falls inside it. -/
theorem mkTarget_getElem? [LinearOrderedField REAL] (outputSize i j : Nat) (hi : i < outputSize)
    (hj : j < outputSize) :
    (mkTarget outputSize i : List REAL × Bool).1[j]? = some (if j = i then 1 else -1) := by
  simp only [mkTarget]
  rw [List.getElem?_set]
  by_cases hij : i = j
  · subst hij; simp [hi]
  · have hji : ¬ j = i := fun h => hij h.symm
    simp [hij, hji, hj]

/-- C3: target encoding built by the constructor.  With a number of patterns
other than 2 the target of class `i` has `numPatterns` slots, `+1` in slot `i`
and `-1` in every other slot; with three patterns class 1 has the target
`[-1, 1, -1]`; with two patterns the targets are `[+1]` for class 0 and `[-1]`
for class 1. -/
theorem target_encoding [LinearOrderedField REAL] (inTrn inVal : List MxInfo)
    (usingSP : Bool) (bestGoal0 : REAL) (p : PatternRecognition REAL)
    (h : construct inTrn inVal usingSP bestGoal0 = Except.ok p) :
    p.numPatterns = inTrn.length ∧ p.targList.length = p.numPatterns ∧
    p.outputSize = (if p.numPatterns = 2 then 1 else p.numPatterns) ∧
    (p.numPatterns ≠ 2 → ∀ i, i < p.numPatterns →
      ∃ t, p.targList[i]? = some t ∧ t.length = p.numPatterns ∧ t[i]? = some 1 ∧
        ∀ j, j < p.numPatterns → j ≠ i → t[j]? = some (-1 : REAL)) ∧
    (p.numPatterns = 3 → p.targList[1]? = some ([-1, 1, -1] : List REAL)) ∧
    (p.numPatterns = 2 → p.targList = [[1], [-1]]) := by
  obtain ⟨_, _, hn, ho, ht, _, _⟩ := construct_ok inTrn inVal usingSP bestGoal0 p h
  refine ⟨hn, ?_, ?_, ?_, ?_, ?_⟩
  · rw [ht, hn]; simp
  · rw [ho, hn]; rfl
  · intro h2 i hi
    rw [hn] at h2 hi
    have hos : outputSizeOf inTrn.length = inTrn.length := by simp [outputSizeOf, h2]
    refine ⟨(mkTarget (outputSizeOf inTrn.length) i).1, ?_, ?_, ?_, ?_⟩
    · rw [ht]; simp [hi]
    · rw [hn]; simp [mkTarget, hos]
    · rw [hos, mkTarget_getElem? _ i i hi hi]; simp
    · intro j hj hji
      rw [hn] at hj
      rw [hos, mkTarget_getElem? _ i j hi hj]; simp [hji]
  · intro h3
    rw [hn] at h3
    rw [ht, h3]
    simp [List.range_succ, outputSizeOf, mkTarget]
  · intro h2
    rw [hn] at h2
    rw [ht, h2]
    simp [List.range_succ, outputSizeOf, mkTarget]

/-- Instance of C3 with three patterns. -/
theorem target_encoding_witness :
    construct [⟨3, 5⟩, ⟨3, 6⟩, ⟨3, 7⟩] [⟨3, 1⟩, ⟨3, 2⟩, ⟨3, 3⟩] false (7 : ℚ) =
      Except.ok
        { useSP := false, bestGoal := 7, numPatterns := 3, inputSize := 3, outputSize := 3,
          targList := [[1, -1, -1], [-1, 1, -1], [-1, -1, 1]],
          numTrnEvents := [5, 6, 7], numValEvents := [1, 2, 3], epochValOutputs := [] } ∧
    (3 = [(⟨3, 5⟩ : MxInfo), ⟨3, 6⟩, ⟨3, 7⟩].length ∧
     [[(1 : ℚ), -1, -1], [-1, 1, -1], [-1, -1, 1]].length = 3 ∧
     3 = (if 3 = 2 then 1 else 3) ∧
     (3 ≠ 2 → ∀ i, i < 3 →
       ∃ t, [[(1 : ℚ), -1, -1], [-1, 1, -1], [-1, -1, 1]][i]? = some t ∧ t.length = 3 ∧
         t[i]? = some 1 ∧ ∀ j, j < 3 → j ≠ i → t[j]? = some (-1 : ℚ)) ∧
     (3 = 3 → [[(1 : ℚ), -1, -1], [-1, 1, -1], [-1, -1, 1]][1]? = some ([-1, 1, -1] : List ℚ)) ∧
     (3 = 2 → [[(1 : ℚ), -1, -1], [-1, 1, -1], [-1, -1, 1]] = [[1], [-1]])) :=
  have hc : construct [⟨3, 5⟩, ⟨3, 6⟩, ⟨3, 7⟩] [⟨3, 1⟩, ⟨3, 2⟩, ⟨3, 3⟩] false (7 : ℚ) =
      Except.ok
        { useSP := false, bestGoal := 7, numPatterns := 3, inputSize := 3, outputSize := 3,
          targList := [[1, -1, -1], [-1, 1, -1], [-1, -1, 1]],
          numTrnEvents := [5, 6, 7], numValEvents := [1, 2, 3], epochValOutputs := [] } := by
    simp [construct, constructLoop, mkTarget, outputSizeOf]
  ⟨hc, target_encoding _ _ _ _ _ hc⟩

/-- The constructor loop ends without an exception when every cell has the
event dimension `m`. -/
theorem constructLoop_succeeds [LinearOrderedField REAL] (m : Nat) :
    ∀ (cells : List (MxInfo × MxInfo)) (i : Nat) (p : PatternRecognition REAL),
      (∀ c, c ∈ cells → c.1.M = m ∧ c.2.M = m) → (i = 0 ∨ p.inputSize = m) →
      ∃ r, constructLoop cells i p = Except.ok r := by
  intro cells
  induction cells with
  | nil => intro i p _ _; exact ⟨p, rfl⟩
  | cons c rest ih =>
    intro i p hc hi
    obtain ⟨patTrnData, patValData⟩ := c
    have hM := hc (patTrnData, patValData) (List.mem_cons_self _ _)
    have h1 : ¬ patTrnData.M ≠ patValData.M := by
      simp only [ne_eq, not_not]
      rw [hM.1, hM.2]
    have h2 : ¬ (i ≠ 0 ∧ patTrnData.M ≠ p.inputSize) := by
      rintro ⟨hi0, hne⟩
      rcases hi with hi | hi
      · exact hi0 hi
      · exact hne (by rw [hM.1, hi])
    rw [constructLoop, if_neg h1, if_neg h2]
    exact ih (i + 1) _ (fun c hc' => hc c (List.mem_cons_of_mem _ hc')) (Or.inr hM.1)

/-- The constructor ends without an exception when both cell arrays have the
same length and every cell has the event dimension `m`. -/
theorem construct_succeeds [LinearOrderedField REAL] (m : Nat) (inTrn inVal : List MxInfo)
    (usingSP : Bool) (bestGoal0 : REAL) (hlen : inTrn.length = inVal.length)
    (hTrn : ∀ c, c ∈ inTrn → c.M = m) (hVal : ∀ c, c ∈ inVal → c.M = m) :
    ∃ p : PatternRecognition REAL, construct inTrn inVal usingSP bestGoal0 = Except.ok p := by
  rw [construct, if_neg (not_not.2 hlen)]
  refine constructLoop_succeeds m _ 0 _ ?_ (Or.inl rfl)
  intro c hc
  exact ⟨hTrn c.1 (List.of_mem_zip hc).1, hVal c.2 (List.of_mem_zip hc).2⟩

/-- C10 (failing input): two patterns, class 1.  The constructor allocates a
target block of `outputSize = 1` slot and stores `target[1] = 1`, one slot past
the block; the block itself keeps `[-1]`.  For class 0, and for every class of
a number of patterns other than 2, the store falls inside the block. -/
theorem target_store_past_block :
    (∀ p : PatternRecognition ℚ,
      construct [⟨3, 5⟩, ⟨3, 6⟩] [⟨3, 1⟩, ⟨3, 2⟩] false (7 : ℚ) = Except.ok p →
        p.numPatterns = 2 ∧ p.outputSize = 1 ∧ ¬ (1 < p.outputSize) ∧
        (mkTarget p.outputSize 1 : List ℚ × Bool) = ([-1], false)) ∧
    construct [⟨3, 5⟩, ⟨3, 6⟩] [⟨3, 1⟩, ⟨3, 2⟩] false (7 : ℚ) =
      Except.ok
        { useSP := false, bestGoal := 7, numPatterns := 2, inputSize := 3, outputSize := 1,
          targList := [[1], [-1]], numTrnEvents := [5, 6], numValEvents := [1, 2],
          epochValOutputs := [] } ∧
    (mkTarget (outputSizeOf 2) 0 : List ℚ × Bool) = ([1], true) ∧
    (∀ numPatterns i, numPatterns ≠ 2 → i < numPatterns →
      (mkTarget (outputSizeOf numPatterns) i : List ℚ × Bool).2 = true) := by
  have hc : construct [⟨3, 5⟩, ⟨3, 6⟩] [⟨3, 1⟩, ⟨3, 2⟩] false (7 : ℚ) =
      Except.ok
        { useSP := false, bestGoal := 7, numPatterns := 2, inputSize := 3, outputSize := 1,
          targList := [[1], [-1]], numTrnEvents := [5, 6], numValEvents := [1, 2],
          epochValOutputs := [] } := by
    simp [construct, constructLoop, mkTarget, outputSizeOf]
  refine ⟨?_, hc, ?_, ?_⟩
  · intro p hp
    rw [hc] at hp
    cases hp
    simp [mkTarget]
  · simp [mkTarget, outputSizeOf]
  · intro numPatterns i h2 hi
    simp [mkTarget, outputSizeOf, h2, hi]

/-- C9: `isBestNetwork` in SP mode.  An object built in SP mode starts with a
stored best of 0, accepts any positive result and rejects 0.  For an object `p`
in SP mode and a result `x`: the call returns true exactly when `x` is strictly
greater than the stored best, and then stores `x`; otherwise it returns false
and leaves the object as it was (so a result equal to the stored best is
rejected); the stored best never decreases and the object stays in SP mode. -/
theorem isBestNetwork_sp_mode [LinearOrderedField REAL]
    (base : PatternRecognition REAL → REAL → Bool × PatternRecognition REAL)
    (inTrn inVal : List MxInfo) (bestGoal0 : REAL) (p0 : PatternRecognition REAL)
    (h0 : construct inTrn inVal true bestGoal0 = Except.ok p0)
    (p : PatternRecognition REAL) (hsp : p.useSP = true) (x : REAL) :
    (p0.useSP = true ∧ p0.bestGoal = 0 ∧
      (0 < x → isBestNetwork base p0 x = (true, { p0 with bestGoal := x })) ∧
      isBestNetwork base p0 0 = (false, p0)) ∧
    ((isBestNetwork base p x).1 = true ↔ x > p.bestGoal) ∧
    (x > p.bestGoal → isBestNetwork base p x = (true, { p with bestGoal := x })) ∧
    (¬ x > p.bestGoal → isBestNetwork base p x = (false, p)) ∧
    isBestNetwork base p p.bestGoal = (false, p) ∧
    p.bestGoal ≤ (isBestNetwork base p x).2.bestGoal ∧
    (isBestNetwork base p x).2.useSP = true := by
  obtain ⟨hu, hb, _⟩ := construct_ok inTrn inVal true bestGoal0 p0 h0
  have hb0 : p0.bestGoal = 0 := by simpa using hb
  refine ⟨⟨hu, hb0, ?_, ?_⟩, ?_, ?_, ?_, ?_, ?_, ?_⟩
  · intro hx
    simp [isBestNetwork, hu, hb0, hx]
  · simp [isBestNetwork, hu, hb0]
  · by_cases hx : x > p.bestGoal <;> simp [isBestNetwork, hsp, hx]
  · intro hx
    simp [isBestNetwork, hsp, hx]
  · intro hx
    simp [isBestNetwork, hsp, hx]
  · simp [isBestNetwork, hsp]
  · by_cases hx : x > p.bestGoal
    · simp [isBestNetwork, hsp, hx, le_of_lt hx]
    · simp [isBestNetwork, hsp, hx]
  · by_cases hx : x > p.bestGoal <;> simp [isBestNetwork, hsp, hx]

/-- Instance of C9: an object in SP mode with a stored best of 1/2 and the
result 3/4. -/
theorem isBestNetwork_sp_mode_witness :
    construct [⟨3, 5⟩, ⟨3, 6⟩] [⟨3, 2⟩, ⟨3, 3⟩] true (7 : ℚ) =
      Except.ok
        { useSP := true, bestGoal := 0, numPatterns := 2, inputSize := 3, outputSize := 1,
          targList := [[1], [-1]], numTrnEvents := [5, 6], numValEvents := [2, 3],
          epochValOutputs := [[0, 0], [0, 0, 0]] } ∧
    ({ useSP := true, bestGoal := 1 / 2, numPatterns := 2, inputSize := 3, outputSize := 1,
       targList := [[1], [-1]], numTrnEvents := [5, 6], numValEvents := [2, 3],
       epochValOutputs := [[0, 0], [0, 0, 0]] } : PatternRecognition ℚ).useSP = true ∧
    isBestNetwork (fun q _ => (false, q))
      ({ useSP := true, bestGoal := 1 / 2, numPatterns := 2, inputSize := 3, outputSize := 1,
         targList := [[1], [-1]], numTrnEvents := [5, 6], numValEvents := [2, 3],
         epochValOutputs := [[0, 0], [0, 0, 0]] } : PatternRecognition ℚ)
      (1 / 2) =
      (false,
        { useSP := true, bestGoal := 1 / 2, numPatterns := 2, inputSize := 3, outputSize := 1,
          targList := [[1], [-1]], numTrnEvents := [5, 6], numValEvents := [2, 3],
          epochValOutputs := [[0, 0], [0, 0, 0]] }) :=
  have hc : construct [⟨3, 5⟩, ⟨3, 6⟩] [⟨3, 2⟩, ⟨3, 3⟩] true (7 : ℚ) =
      Except.ok
        { useSP := true, bestGoal := 0, numPatterns := 2, inputSize := 3, outputSize := 1,
          targList := [[1], [-1]], numTrnEvents := [5, 6], numValEvents := [2, 3],
          epochValOutputs := [[0, 0], [0, 0, 0]] } := by
    simp [construct, constructLoop, mkTarget, outputSizeOf, UINT_RANGE, List.replicate]
  ⟨hc, rfl,
    (isBestNetwork_sp_mode (fun q _ => (false, q)) _ _ _ _ hc
      { useSP := true, bestGoal := 1 / 2, numPatterns := 2, inputSize := 3, outputSize := 1,
        targList := [[1], [-1]], numTrnEvents := [5, 6], numValEvents := [2, 3],
        epochValOutputs := [[0, 0], [0, 0, 0]] } rfl (3 / 4)).2.2.2.2.1⟩

/-- Closed form of the event loop of one pattern when the weighting factor is
finite. -/
theorem foldl_weighted [LinearOrderedField REAL] (w : REAL) (f : Nat → REAL) (n : Nat)
    (g0 : REAL) :
    (List.range n).foldl (fun g i => FP.add g (FP.mul (FP.fin w) (FP.fin (f i)))) (FP.fin g0) =
      FP.fin (g0 + ((List.range n).map (fun i => w * f i)).sum) := by
  induction n with
  | zero => simp
  | succ n ih =>
    rw [List.range_succ, List.foldl_append, ih]
    simp [FP.add, FP.mul, add_assoc]

/-- Sum of `n` equal terms over the events of a pattern. -/
theorem sum_const_events [LinearOrderedField REAL] (w e : REAL) (f : Nat → REAL) (n : Nat)
    (hf : ∀ i, i < n → f i = e) :
    ((List.range n).map (fun i => w * f i)).sum = (n : REAL) * (w * e) := by
  have h : (List.range n).map (fun i => w * f i) = (List.range n).map (fun _ => w * e) :=
    List.map_congr_left (fun i hi => by rw [hf i (List.mem_range.1 hi)])
  rw [h]
  simp

/-- The weighting factor when the product of the two counts fits `unsigned`. -/
theorem wFactor_of_lt [LinearOrderedField REAL] (numPatterns numEvents : Nat)
    (hP : 0 < numPatterns) (hn : 0 < numEvents) (hfit : numPatterns * numEvents < UINT_RANGE) :
    (wFactor numPatterns numEvents : FP REAL) =
      FP.fin (1 / ((numPatterns : REAL) * (numEvents : REAL))) := by
  have hne : ((numPatterns * numEvents : Nat) : REAL) ≠ 0 :=
    Nat.cast_ne_zero.2 (Nat.mul_ne_zero (by omega) (by omega))
  rw [wFactor, Nat.mod_eq_of_lt hfit, FP.div, if_neg hne, Nat.cast_mul]

/-- Equal influence in `trainNetwork`, when the product of the counts fits
`unsigned`: a pattern of `n > 0` events, each of error `e`, adds
`e / numPatterns` to `gbError`. -/
theorem trainPattern_of_const [LinearOrderedField REAL] (net : Nat → Nat → REAL)
    (p : PatternRecognition REAL) (pat n : Nat) (e g : REAL)
    (hP : 1 ≤ p.numPatterns) (hn : 0 < n) (hcount : p.numTrnEvents.getD pat 0 = n)
    (hfit : p.numPatterns * n < UINT_RANGE) (he : ∀ i, i < n → net pat i = e) :
    trainPattern net p pat (FP.fin g) = FP.fin (g + e / (p.numPatterns : REAL)) := by
  rw [trainPattern, hcount, wFactor_of_lt p.numPatterns n hP hn hfit, foldl_weighted,
    sum_const_events _ e (net pat) n he]
  have h1 : (p.numPatterns : REAL) ≠ 0 := Nat.cast_ne_zero.2 (by omega)
  have h2 : (n : REAL) ≠ 0 := Nat.cast_ne_zero.2 (by omega)
  congr 2
  field_simp
  ring

/-- Equal influence over a whole epoch of `trainNetwork`, when the products of
the counts fit `unsigned`: if every event of pattern `pat` has the error
`e pat` and no pattern is empty, the epoch error is the sum of the
`e pat / numPatterns`. -/
theorem trainNetwork_of_const [LinearOrderedField REAL] (net : Nat → Nat → REAL)
    (p : PatternRecognition REAL) (e : Nat → REAL) (hP : 1 ≤ p.numPatterns)
    (hn : ∀ pat, pat < p.numPatterns → 0 < p.numTrnEvents.getD pat 0)
    (hfit : ∀ pat, pat < p.numPatterns →
      p.numPatterns * p.numTrnEvents.getD pat 0 < UINT_RANGE)
    (he : ∀ pat i, pat < p.numPatterns → i < p.numTrnEvents.getD pat 0 → net pat i = e pat) :
    trainNetwork net p =
      FP.fin ((List.range p.numPatterns).map
        (fun pat => e pat / (p.numPatterns : REAL))).sum := by
  have key : ∀ k, k ≤ p.numPatterns →
      (List.range k).foldl (fun g pat => trainPattern net p pat g) (FP.fin 0) =
        FP.fin ((List.range k).map (fun pat => e pat / (p.numPatterns : REAL))).sum := by
    intro k
    induction k with
    | zero => intro _; simp
    | succ k ih =>
      intro hk
      rw [List.range_succ, List.foldl_append, ih (by omega)]
      simp only [List.foldl_cons, List.foldl_nil, List.map_append, List.map_cons, List.map_nil,
        List.sum_append, List.sum_cons, List.sum_nil, add_zero]
      exact trainPattern_of_const net p k _ (e k) _ hP (hn k (by omega)) rfl
        (hfit k (by omega)) (fun i hi => he k i (by omega) hi)
  exact key p.numPatterns (le_refl _)

/-- Closed form of the event loop of `valNetwork` for one pattern in error
mode. -/
theorem valPattern_error_mode [LinearOrderedField REAL] (net : Nat → Nat → REAL × REAL)
    (p : PatternRecognition REAL) (pat : Nat) (w g : REAL) (hsp : p.useSP = false)
    (hw : wFactor p.numPatterns (p.numValEvents.getD pat 0) = FP.fin w) :
    valPattern net pat (FP.fin g, p) =
      (FP.fin (g + ((List.range (p.numValEvents.getD pat 0)).map
        (fun i => w * (net pat i).1)).sum), p) := by
  rw [valPattern]
  simp only [hw]
  generalize p.numValEvents.getD pat 0 = n
  induction n with
  | zero => simp
  | succ n ih =>
    rw [List.range_succ, List.foldl_append, ih]
    simp [FP.add, FP.mul, add_assoc, hsp]

/-- Equal influence in `valNetwork` in error mode, when the product of the
counts fits `unsigned`. -/
theorem valPattern_of_const [LinearOrderedField REAL] (net : Nat → Nat → REAL × REAL)
    (p : PatternRecognition REAL) (pat n : Nat) (e g : REAL) (hsp : p.useSP = false)
    (hP : 1 ≤ p.numPatterns) (hn : 0 < n) (hcount : p.numValEvents.getD pat 0 = n)
    (hfit : p.numPatterns * n < UINT_RANGE) (he : ∀ i, i < n → (net pat i).1 = e) :
    valPattern net pat (FP.fin g, p) = (FP.fin (g + e / (p.numPatterns : REAL)), p) := by
  have hw := @wFactor_of_lt REAL _ p.numPatterns n hP hn hfit
  rw [← hcount] at hw
  rw [valPattern_error_mode net p pat _ g hsp hw, hcount,
    sum_const_events _ e (fun i => (net pat i).1) n he]
  have h1 : (p.numPatterns : REAL) ≠ 0 := Nat.cast_ne_zero.2 (by omega)
  have h2 : (n : REAL) ≠ 0 := Nat.cast_ne_zero.2 (by omega)
  congr 2
  field_simp
  ring

/-- C7 (failing input): three patterns, the first with 1431655766 training and
validation events, every sample of error 1.  The product `3 * 1431655766` does
not fit `unsigned` and wraps to 2, the weighting factor is 1/2, and the pattern
adds 715827883 to the epoch error of `trainNetwork` and of `valNetwork`, where
equal influence asks for 1/3; a pattern of 10 events adds 1/3. -/
theorem weighted_error_count_product_wraps :
    (3 * 1431655766) % UINT_RANGE = 2 ∧
    (wFactor 3 1431655766 : FP ℚ) = FP.fin (1 / 2) ∧
    (∀ p : PatternRecognition ℚ,
      construct [⟨1, 1431655766⟩, ⟨1, 10⟩, ⟨1, 10⟩] [⟨1, 1431655766⟩, ⟨1, 10⟩, ⟨1, 10⟩]
        false (0 : ℚ) = Except.ok p →
      trainPattern (fun _ _ => (1 : ℚ)) p 0 (FP.fin 0) = FP.fin 715827883 ∧
      valPattern (fun _ _ => ((1 : ℚ), (0 : ℚ))) 0 (FP.fin 0, p) = (FP.fin 715827883, p) ∧
      trainPattern (fun _ _ => (1 : ℚ)) p 1 (FP.fin 0) = FP.fin (1 / 3) ∧
      trainNetwork (fun _ _ => (1 : ℚ)) p = FP.fin (715827883 + 1 / 3 + 1 / 3)) ∧
    construct [⟨1, 1431655766⟩, ⟨1, 10⟩, ⟨1, 10⟩] [⟨1, 1431655766⟩, ⟨1, 10⟩, ⟨1, 10⟩]
        false (0 : ℚ) =
      Except.ok
        { useSP := false, bestGoal := 0, numPatterns := 3, inputSize := 1, outputSize := 3,
          targList := [[1, -1, -1], [-1, 1, -1], [-1, -1, 1]],
          numTrnEvents := [1431655766, 10, 10], numValEvents := [1431655766, 10, 10],
          epochValOutputs := [] } ∧
    (1 : ℚ) / ((3 : Nat) : ℚ) ≠ 715827883 := by
  have hmod : (3 * 1431655766) % UINT_RANGE = 2 := by norm_num [UINT_RANGE]
  have hw : (wFactor 3 1431655766 : FP ℚ) = FP.fin (1 / 2) := by
    rw [wFactor, hmod, FP.div]
    norm_num
  have hc : construct [⟨1, 1431655766⟩, ⟨1, 10⟩, ⟨1, 10⟩]
      [⟨1, 1431655766⟩, ⟨1, 10⟩, ⟨1, 10⟩] false (0 : ℚ) =
      Except.ok
        { useSP := false, bestGoal := 0, numPatterns := 3, inputSize := 1, outputSize := 3,
          targList := [[1, -1, -1], [-1, 1, -1], [-1, -1, 1]],
          numTrnEvents := [1431655766, 10, 10], numValEvents := [1431655766, 10, 10],
          epochValOutputs := [] } := by
    simp [construct, constructLoop, mkTarget, outputSizeOf]
  refine ⟨hmod, hw, ?_, hc, by norm_num⟩
  intro p hp
  obtain ⟨hsp, _, hP, _, _, hnT, hnV⟩ := construct_ok _ _ _ _ p hp
  have hP3 : p.numPatterns = 3 := hP
  have hT0 : p.numTrnEvents.getD 0 0 = 1431655766 := by rw [hnT]; rfl
  have hT1 : p.numTrnEvents.getD 1 0 = 10 := by rw [hnT]; rfl
  have hT2 : p.numTrnEvents.getD 2 0 = 10 := by rw [hnT]; rfl
  have hV0 : p.numValEvents.getD 0 0 = 1431655766 := by rw [hnV]; rfl
  have hfit : p.numPatterns * 10 < UINT_RANGE := by rw [hP3]; norm_num [UINT_RANGE]
  have h0 : ∀ g : ℚ, trainPattern (fun _ _ => (1 : ℚ)) p 0 (FP.fin g) =
      FP.fin (g + 715827883) := by
    intro g
    rw [trainPattern, hT0, hP3, hw, foldl_weighted,
      sum_const_events (1 / 2) 1 (fun _ => (1 : ℚ)) _ (fun _ _ => rfl)]
    norm_num
  have h1 : ∀ g : ℚ, trainPattern (fun _ _ => (1 : ℚ)) p 1 (FP.fin g) =
      FP.fin (g + 1 / 3) := by
    intro g
    rw [trainPattern_of_const (fun _ _ => (1 : ℚ)) p 1 10 1 g (by omega) (by decide) hT1
      hfit (fun _ _ => rfl), hP3]
    norm_num
  have h2 : ∀ g : ℚ, trainPattern (fun _ _ => (1 : ℚ)) p 2 (FP.fin g) =
      FP.fin (g + 1 / 3) := by
    intro g
    rw [trainPattern_of_const (fun _ _ => (1 : ℚ)) p 2 10 1 g (by omega) (by decide) hT2
      hfit (fun _ _ => rfl), hP3]
    norm_num
  refine ⟨?_, ?_, ?_, ?_⟩
  · rw [h0]; norm_num
  · rw [valPattern_error_mode _ p 0 (1 / 2) 0 hsp (by rw [hV0, hP3]; exact hw), hV0,
      sum_const_events (1 / 2) 1 (fun _ => (1 : ℚ)) _ (fun _ _ => rfl)]
    norm_num
  · rw [h1]; norm_num
  · have h3 : trainNetwork (fun _ _ => (1 : ℚ)) p =
        trainPattern (fun _ _ => (1 : ℚ)) p 2
          (trainPattern (fun _ _ => (1 : ℚ)) p 1
            (trainPattern (fun _ _ => (1 : ℚ)) p 0 (FP.fin 0))) := by
      rw [trainNetwork, hP3]
      rfl
    rw [h3, h0, h1, h2]
    norm_num

/-- The counting loop counts at most `n` events. -/
theorem effCount_le [Zero REAL] (buf : List REAL) (n : Nat) (test : REAL → Bool) :
    effCount buf n test ≤ n := by
  have h := List.length_filter_le (fun i => test (buf.getD i 0)) (List.range n)
  simpa [effCount] using h

/-- The counting loop counts all `n` events when each passes the test. -/
theorem effCount_all [Zero REAL] (buf : List REAL) (n : Nat) (test : REAL → Bool)
    (h : ∀ i, i < n → test (buf.getD i 0) = true) : effCount buf n test = n := by
  have hf : (List.range n).filter (fun i => test (buf.getD i 0)) = List.range n :=
    List.filter_eq_self.2 (fun i hi => h i (List.mem_range.1 hi))
  rw [effCount, hf, List.length_range]

/-- An efficiency over at least one event is a fraction between 0 and 1. -/
theorem effic_of_pos [LinearOrderedField REAL] (buf : List REAL) (n : Nat)
    (test : REAL → Bool) (hn : 0 < n) :
    ∃ s, effic buf n test = FP.fin s ∧ 0 ≤ s ∧ s ≤ 1 ∧
      s = (effCount buf n test : REAL) / (n : REAL) := by
  have hne : ((n : Nat) : REAL) ≠ 0 := Nat.cast_ne_zero.2 (by omega)
  have hpos : (0 : REAL) < (n : REAL) := Nat.cast_pos.2 hn
  refine ⟨(effCount buf n test : REAL) / (n : REAL), ?_, ?_, ?_, rfl⟩
  · rw [effic, FP.div, if_neg hne]
  · exact div_nonneg (Nat.cast_nonneg _) (le_of_lt hpos)
  · rw [div_le_one hpos]
    exact Nat.cast_le.2 (effCount_le buf n test)

/-- An efficiency over no event is not a number. -/
theorem effic_zero [LinearOrderedField REAL] (buf : List REAL) (test : REAL → Bool) :
    effic buf 0 test = FP.nonfinite := by
  simp [effic, FP.div]

/-- The score of two fractions between 0 and 1 lies between 0 and 1. -/
theorem spScore_bounds [LinearOrderedField REAL] (sqrt : REAL → REAL)
    (hsqrt : ∀ x, 0 ≤ x → x ≤ 1 → 0 ≤ sqrt x ∧ sqrt x ≤ 1) (s t : REAL)
    (hs0 : 0 ≤ s) (hs1 : s ≤ 1) (ht0 : 0 ≤ t) (ht1 : t ≤ 1) :
    0 ≤ ((s + t) / 2) * sqrt (s * t) ∧ ((s + t) / 2) * sqrt (s * t) ≤ 1 := by
  have hst0 : 0 ≤ s * t := mul_nonneg hs0 ht0
  have hst1 : s * t ≤ 1 := by nlinarith
  obtain ⟨hq0, hq1⟩ := hsqrt (s * t) hst0 hst1
  have hm0 : 0 ≤ (s + t) / 2 := by linarith
  have hm1 : (s + t) / 2 ≤ 1 := by linarith
  constructor
  · exact mul_nonneg hm0 hq0
  · nlinarith

/-- With both classes non-empty the score at any threshold is a number between
0 and 1. -/
theorem scoreAt_bounds [LinearOrderedField REAL] (sqrt : REAL → REAL)
    (hsqrt : ∀ x, 0 ≤ x → x ≤ 1 → 0 ≤ sqrt x ∧ sqrt x ≤ 1) (signal noise : List REAL)
    (nS nN : Nat) (hS : 0 < nS) (hN : 0 < nN) (pos : REAL) :
    ∃ s, scoreAt sqrt signal nS noise nN pos = FP.fin s ∧ 0 ≤ s ∧ s ≤ 1 := by
  obtain ⟨a, ha, ha0, ha1, _⟩ := effic_of_pos signal nS (fun x => decide (x ≥ pos)) hS
  obtain ⟨b, hb, hb0, hb1, _⟩ := effic_of_pos noise nN (fun x => decide (x < pos)) hN
  refine ⟨((a + b) / 2) * sqrt (a * b), ?_, spScore_bounds sqrt hsqrt a b ha0 ha1 hb0 hb1⟩
  rw [scoreAt, ha, hb, spScore]

/-- With an empty signal class the score at any threshold is not a number. -/
theorem scoreAt_empty_signal [LinearOrderedField REAL] (sqrt : REAL → REAL)
    (signal noise : List REAL) (nN : Nat) (pos : REAL) :
    scoreAt sqrt signal 0 noise nN pos = FP.nonfinite := by
  rw [scoreAt, effic_zero]
  rfl

/-- The scan ends and keeps `maxSP` between 0 and 1 once it is there. -/
theorem spLoop_bounds [LinearOrderedField REAL] (sqrt : REAL → REAL)
    (hsqrt : ∀ x, 0 ≤ x → x ≤ 1 → 0 ≤ sqrt x ∧ sqrt x ≤ 1) (signal noise : List REAL)
    (nS nN : Nat) (hS : 0 < nS) (hN : 0 < nN) (signalTarget : REAL) :
    ∀ (m fuel : Nat) (pos maxSP : REAL), 0 ≤ maxSP → maxSP ≤ 1 →
      signalTarget ≤ pos + (m : REAL) * (1 / 1000) → m < fuel →
      ∃ v, spLoop sqrt signal nS noise nN signalTarget fuel pos maxSP = some v ∧
        0 ≤ v ∧ v ≤ 1 := by
  intro m
  induction m with
  | zero =>
    intro fuel pos maxSP h0 h1 hend hf
    obtain ⟨f, rfl⟩ : ∃ f, fuel = f + 1 := ⟨fuel - 1, by omega⟩
    have hnot : ¬ pos < signalTarget := by
      simp only [Nat.cast_zero, zero_mul, add_zero] at hend
      exact not_lt.2 hend
    exact ⟨maxSP, by rw [spLoop, if_neg hnot], h0, h1⟩
  | succ m ih =>
    intro fuel pos maxSP h0 h1 hend hf
    obtain ⟨f, rfl⟩ : ∃ f, fuel = f + 1 := ⟨fuel - 1, by omega⟩
    by_cases hlt : pos < signalTarget
    · rw [spLoop, if_pos hlt]
      obtain ⟨s, hs, hs0, hs1⟩ := scoreAt_bounds sqrt hsqrt signal noise nS nN hS hN pos
      apply ih f (pos + 1 / 1000)
      · rw [hs, updateMax]; split_ifs <;> assumption
      · rw [hs, updateMax]; split_ifs <;> assumption
      · have : ((m + 1 : Nat) : REAL) = (m : REAL) + 1 := by push_cast; ring
        rw [this] at hend
        linarith
      · omega
    · exact ⟨maxSP, by rw [spLoop, if_neg hlt], h0, h1⟩

/-- The scan ends and leaves `maxSP` as it is when the signal class is empty. -/
theorem spLoop_empty_signal [LinearOrderedField REAL] (sqrt : REAL → REAL)
    (signal noise : List REAL) (nN : Nat) (signalTarget : REAL) :
    ∀ (m fuel : Nat) (pos maxSP : REAL),
      signalTarget ≤ pos + (m : REAL) * (1 / 1000) → m < fuel →
      spLoop sqrt signal 0 noise nN signalTarget fuel pos maxSP = some maxSP := by
  intro m
  induction m with
  | zero =>
    intro fuel pos maxSP hend hf
    obtain ⟨f, rfl⟩ : ∃ f, fuel = f + 1 := ⟨fuel - 1, by omega⟩
    have hnot : ¬ pos < signalTarget := by
      simp only [Nat.cast_zero, zero_mul, add_zero] at hend
      exact not_lt.2 hend
    rw [spLoop, if_neg hnot]
  | succ m ih =>
    intro fuel pos maxSP hend hf
    obtain ⟨f, rfl⟩ : ∃ f, fuel = f + 1 := ⟨fuel - 1, by omega⟩
    by_cases hlt : pos < signalTarget
    · rw [spLoop, if_pos hlt, scoreAt_empty_signal, updateMax]
      apply ih f (pos + 1 / 1000)
      · have : ((m + 1 : Nat) : REAL) = (m : REAL) + 1 := by push_cast; ring
        rw [this] at hend
        linarith
      · omega
    · rw [spLoop, if_neg hlt]

/-- The scan ends and keeps `maxSP = 1`. -/
theorem spLoop_stays_one [LinearOrderedField REAL] (sqrt : REAL → REAL)
    (hsqrt : ∀ x, 0 ≤ x → x ≤ 1 → 0 ≤ sqrt x ∧ sqrt x ≤ 1) (signal noise : List REAL)
    (nS nN : Nat) (hS : 0 < nS) (hN : 0 < nN) (signalTarget : REAL) :
    ∀ (m fuel : Nat) (pos : REAL),
      signalTarget ≤ pos + (m : REAL) * (1 / 1000) → m < fuel →
      spLoop sqrt signal nS noise nN signalTarget fuel pos 1 = some 1 := by
  intro m
  induction m with
  | zero =>
    intro fuel pos hend hf
    obtain ⟨f, rfl⟩ : ∃ f, fuel = f + 1 := ⟨fuel - 1, by omega⟩
    have hnot : ¬ pos < signalTarget := by
      simp only [Nat.cast_zero, zero_mul, add_zero] at hend
      exact not_lt.2 hend
    rw [spLoop, if_neg hnot]
  | succ m ih =>
    intro fuel pos hend hf
    obtain ⟨f, rfl⟩ : ∃ f, fuel = f + 1 := ⟨fuel - 1, by omega⟩
    by_cases hlt : pos < signalTarget
    · obtain ⟨s, hs, _, hs1⟩ := scoreAt_bounds sqrt hsqrt signal noise nS nN hS hN pos
      have hkeep : updateMax (FP.fin s) 1 = 1 := by
        rw [updateMax, if_neg (not_lt.2 hs1)]
      rw [spLoop, if_pos hlt, hs, hkeep]
      apply ih f (pos + 1 / 1000)
      · have : ((m + 1 : Nat) : REAL) = (m : REAL) + 1 := by push_cast; ring
        rw [this] at hend
        linarith
      · omega
    · rw [spLoop, if_neg hlt]

/-- With the targets of two classes, `sp()` takes class 0 as the signal and
scans from -1 to 1. -/
theorem sp_two_classes [LinearOrderedField REAL] (sqrt : REAL → REAL) (fuel : Nat)
    (p : PatternRecognition REAL) (ht : p.targList = [[1], [-1]]) :
    sp sqrt fuel p =
      spLoop sqrt (p.epochValOutputs.getD 0 []) (p.numValEvents.getD 0 0)
        (p.epochValOutputs.getD 1 []) (p.numValEvents.getD 1 0) 1 fuel (-1) (-1) := by
  have h : ((1 : REAL) > -1) := by norm_num
  simp [sp, ht, h]

/-- Targets the constructor builds for two patterns. -/
theorem targList_two [LinearOrderedField REAL] (inTrn inVal : List MxInfo) (usingSP : Bool)
    (bestGoal0 : REAL) (p : PatternRecognition REAL)
    (h : construct inTrn inVal usingSP bestGoal0 = Except.ok p) (h2 : p.numPatterns = 2) :
    p.targList = [[1], [-1]] := by
  obtain ⟨_, _, hn, _, ht, _, _⟩ := construct_ok inTrn inVal usingSP bestGoal0 p h
  rw [hn] at h2
  rw [ht, h2]
  simp [List.range_succ, outputSizeOf, mkTarget]

/-- C5 (as amended): SP bound.  For an object built for two pattern classes,
each with at least one validation event, whatever the validation-output buffers
hold: the score at every threshold is a number between 0 and 1, the scan of
`sp()` ends within 2001 iterations, and the value `sp()` returns lies between 0
and 1.  The square root is any function mapping the unit interval into
itself. -/
theorem sp_within_unit_interval [LinearOrderedField REAL] (sqrt : REAL → REAL)
    (hsqrt : ∀ x, 0 ≤ x → x ≤ 1 → 0 ≤ sqrt x ∧ sqrt x ≤ 1)
    (inTrn inVal : List MxInfo) (bestGoal0 : REAL) (p : PatternRecognition REAL)
    (hp : construct inTrn inVal true bestGoal0 = Except.ok p) (h2 : p.numPatterns = 2)
    (hS : 0 < p.numValEvents.getD 0 0) (hN : 0 < p.numValEvents.getD 1 0)
    (bufs : List (List REAL)) (fuel : Nat) (hfuel : 2001 ≤ fuel) :
    (∀ pos, ∃ s,
      scoreAt sqrt (bufs.getD 0 []) (p.numValEvents.getD 0 0) (bufs.getD 1 [])
        (p.numValEvents.getD 1 0) pos = FP.fin s ∧ 0 ≤ s ∧ s ≤ 1) ∧
    ∃ v, sp sqrt fuel { p with epochValOutputs := bufs } = some v ∧ 0 ≤ v ∧ v ≤ 1 := by
  have ht := targList_two inTrn inVal true bestGoal0 p hp h2
  refine ⟨fun pos => scoreAt_bounds sqrt hsqrt _ _ _ _ hS hN pos, ?_⟩
  rw [sp_two_classes sqrt fuel { p with epochValOutputs := bufs } ht]
  obtain ⟨f, rfl⟩ : ∃ f, fuel = f + 1 := ⟨fuel - 1, by omega⟩
  obtain ⟨s, hs, hs0, hs1⟩ := scoreAt_bounds sqrt hsqrt (bufs.getD 0 [])
    (bufs.getD 1 []) (p.numValEvents.getD 0 0) (p.numValEvents.getD 1 0) hS hN (-1)
  have hfirst : updateMax (FP.fin s) (-1 : REAL) = s := by
    rw [updateMax, if_pos (by linarith)]
  rw [spLoop, if_pos (by norm_num), hs, hfirst]
  exact spLoop_bounds sqrt hsqrt _ _ _ _ hS hN 1 1999 f _ s hs0 hs1 (by norm_num) (by omega)

/-- Instance of C5 (as amended): two validation events of class 0, three of
class 1, over the reals with their square root. -/
theorem sp_within_unit_interval_witness :
    (∀ x : ℝ, 0 ≤ x → x ≤ 1 → 0 ≤ Real.sqrt x ∧ Real.sqrt x ≤ 1) ∧
    construct [⟨3, 5⟩, ⟨3, 6⟩] [⟨3, 2⟩, ⟨3, 3⟩] true (0 : ℝ) =
      Except.ok
        { useSP := true, bestGoal := 0, numPatterns := 2, inputSize := 3, outputSize := 1,
          targList := [[1], [-1]], numTrnEvents := [5, 6], numValEvents := [2, 3],
          epochValOutputs := [[0, 0], [0, 0, 0]] } ∧
    ∃ v, sp Real.sqrt 2001
      { useSP := true, bestGoal := 0, numPatterns := 2, inputSize := 3, outputSize := 1,
        targList := [[1], [-1]], numTrnEvents := [5, 6], numValEvents := [2, 3],
        epochValOutputs := [[1 / 2, 1 / 4], [0, 1 / 2, 1 / 3]] } = some v ∧ 0 ≤ v ∧ v ≤ 1 :=
  have hsqrt : ∀ x : ℝ, 0 ≤ x → x ≤ 1 → 0 ≤ Real.sqrt x ∧ Real.sqrt x ≤ 1 :=
    fun x _ h1 => ⟨Real.sqrt_nonneg x, Real.sqrt_le_one.2 h1⟩
  have hc : construct [⟨3, 5⟩, ⟨3, 6⟩] [⟨3, 2⟩, ⟨3, 3⟩] true (0 : ℝ) =
      Except.ok
        { useSP := true, bestGoal := 0, numPatterns := 2, inputSize := 3, outputSize := 1,
          targList := [[1], [-1]], numTrnEvents := [5, 6], numValEvents := [2, 3],
          epochValOutputs := [[0, 0], [0, 0, 0]] } := by
    simp [construct, constructLoop, mkTarget, outputSizeOf, UINT_RANGE, List.replicate]
  ⟨hsqrt, hc,
    (sp_within_unit_interval Real.sqrt hsqrt _ _ _ _ hc rfl (by decide) (by decide)
      [[1 / 2, 1 / 4], [0, 1 / 2, 1 / 3]] 2001 (le_refl _)).2⟩

/-- C5 (counterexample): an object built for two classes of which class 0, the
signal, has no validation event.  Every efficiency of the signal is `0. / 0.`,
every score is not a number, no comparison `sp > maxSP` holds, and `sp()`
returns its initial `maxSP = -1`, which is below 0. -/
theorem sp_empty_signal_class_returns_minus_one :
    construct [⟨3, 5⟩, ⟨3, 6⟩] [⟨3, 0⟩, ⟨3, 3⟩] true (0 : ℝ) =
      Except.ok
        { useSP := true, bestGoal := 0, numPatterns := 2, inputSize := 3, outputSize := 1,
          targList := [[1], [-1]], numTrnEvents := [5, 6], numValEvents := [0, 3],
          epochValOutputs := [[], [0, 0, 0]] } ∧
    scoreAt Real.sqrt [] 0 [0, 0, 0] 3 (-1) = FP.nonfinite ∧
    sp Real.sqrt 2001
      { useSP := true, bestGoal := 0, numPatterns := 2, inputSize := 3, outputSize := 1,
        targList := [[1], [-1]], numTrnEvents := [5, 6], numValEvents := [0, 3],
        epochValOutputs := [[], [0, 0, 0]] } = some (-1) ∧
    ¬ (0 ≤ (-1 : ℝ)) := by
  refine ⟨?_, scoreAt_empty_signal _ _ _ _ _, ?_, by norm_num⟩
  · simp [construct, constructLoop, mkTarget, outputSizeOf, UINT_RANGE, List.replicate]
  · rw [sp_two_classes Real.sqrt 2001 _ rfl]
    exact spLoop_empty_signal Real.sqrt _ _ _ 1 2000 2001 (-1) (-1) (by norm_num) (by decide)

/-- C6: SP on perfectly separated data.  For an object built for two classes
(targets `[+1]` and `[-1]`), both with at least one validation event, every
captured output of class 0 equal to 1 and every captured output of class 1
equal to -1: `sp()` ends and returns exactly 1; at every threshold above -1 and
up to 1, the threshold 0 among them, both efficiencies are 1 and the score is
1.  The square root is any function mapping the unit interval into itself
with `sqrt 1 = 1`. -/
theorem sp_perfect_separation [LinearOrderedField REAL] (sqrt : REAL → REAL)
    (hsqrt : ∀ x, 0 ≤ x → x ≤ 1 → 0 ≤ sqrt x ∧ sqrt x ≤ 1) (hsqrt1 : sqrt 1 = 1)
    (inTrn inVal : List MxInfo) (bestGoal0 : REAL) (p : PatternRecognition REAL)
    (hp : construct inTrn inVal true bestGoal0 = Except.ok p) (h2 : p.numPatterns = 2)
    (hS : 0 < p.numValEvents.getD 0 0) (hN : 0 < p.numValEvents.getD 1 0)
    (bufs : List (List REAL))
    (hsig : ∀ i, i < p.numValEvents.getD 0 0 → (bufs.getD 0 []).getD i 0 = 1)
    (hnoise : ∀ i, i < p.numValEvents.getD 1 0 → (bufs.getD 1 []).getD i 0 = -1)
    (fuel : Nat) (hfuel : 2001 ≤ fuel) :
    p.targList = [[1], [-1]] ∧
    sp sqrt fuel { p with epochValOutputs := bufs } = some 1 ∧
    (∀ pos : REAL, -1 < pos → pos ≤ 1 →
      effic (bufs.getD 0 []) (p.numValEvents.getD 0 0) (fun x => decide (x ≥ pos)) = FP.fin 1 ∧
      effic (bufs.getD 1 []) (p.numValEvents.getD 1 0) (fun x => decide (x < pos)) = FP.fin 1 ∧
      scoreAt sqrt (bufs.getD 0 []) (p.numValEvents.getD 0 0) (bufs.getD 1 [])
        (p.numValEvents.getD 1 0) pos = FP.fin 1) ∧
    scoreAt sqrt (bufs.getD 0 []) (p.numValEvents.getD 0 0) (bufs.getD 1 [])
      (p.numValEvents.getD 1 0) 0 = FP.fin 1 := by
  have ht := targList_two inTrn inVal true bestGoal0 p hp h2
  have hnS : ((p.numValEvents.getD 0 0 : Nat) : REAL) ≠ 0 := Nat.cast_ne_zero.2 (by omega)
  have hnN : ((p.numValEvents.getD 1 0 : Nat) : REAL) ≠ 0 := Nat.cast_ne_zero.2 (by omega)
  have hunit : ∀ pos : REAL, -1 < pos → pos ≤ 1 →
      effic (bufs.getD 0 []) (p.numValEvents.getD 0 0) (fun x => decide (x ≥ pos)) = FP.fin 1 ∧
      effic (bufs.getD 1 []) (p.numValEvents.getD 1 0) (fun x => decide (x < pos)) = FP.fin 1 ∧
      scoreAt sqrt (bufs.getD 0 []) (p.numValEvents.getD 0 0) (bufs.getD 1 [])
        (p.numValEvents.getD 1 0) pos = FP.fin 1 := by
    intro pos hlo hhi
    have h1 : effic (bufs.getD 0 []) (p.numValEvents.getD 0 0) (fun x => decide (x ≥ pos)) =
        FP.fin 1 := by
      rw [effic, effCount_all _ _ _ (fun i hi => by rw [hsig i hi]; exact decide_eq_true hhi),
        FP.div, if_neg hnS, div_self hnS]
    have h2 : effic (bufs.getD 1 []) (p.numValEvents.getD 1 0) (fun x => decide (x < pos)) =
        FP.fin 1 := by
      rw [effic, effCount_all _ _ _ (fun i hi => by rw [hnoise i hi]; exact decide_eq_true hlo),
        FP.div, if_neg hnN, div_self hnN]
    refine ⟨h1, h2, ?_⟩
    rw [scoreAt, h1, h2, spScore]
    norm_num [hsqrt1]
  refine ⟨ht, ?_, hunit, (hunit 0 (by norm_num) (by norm_num)).2.2⟩
  rw [sp_two_classes sqrt fuel { p with epochValOutputs := bufs } ht]
  obtain ⟨f, rfl⟩ : ∃ f, fuel = f + 2 := ⟨fuel - 2, by omega⟩
  obtain ⟨s, hs, hs0, hs1⟩ := scoreAt_bounds sqrt hsqrt (bufs.getD 0 [])
    (bufs.getD 1 []) (p.numValEvents.getD 0 0) (p.numValEvents.getD 1 0) hS hN (-1)
  have hfirst : updateMax (FP.fin s) (-1 : REAL) = s := by
    rw [updateMax, if_pos (by linarith)]
  have hsecond : updateMax (FP.fin (1 : REAL)) s = 1 := by
    rw [updateMax]
    split_ifs with h
    · rfl
    · exact le_antisymm hs1 (not_lt.1 h)
  rw [spLoop, if_pos (by norm_num), hs, hfirst, spLoop, if_pos (by norm_num),
    (hunit (-1 + 1 / 1000) (by norm_num) (by norm_num)).2.2, hsecond]
  exact spLoop_stays_one sqrt hsqrt _ _ _ _ hS hN 1 1998 f _ (by norm_num) (by omega)

/-- Instance of C6: two signal outputs equal to 1 and three noise outputs equal
to -1, over the reals with their square root. -/
theorem sp_perfect_separation_witness :
    (∀ x : ℝ, 0 ≤ x → x ≤ 1 → 0 ≤ Real.sqrt x ∧ Real.sqrt x ≤ 1) ∧ Real.sqrt 1 = 1 ∧
    construct [⟨3, 5⟩, ⟨3, 6⟩] [⟨3, 2⟩, ⟨3, 3⟩] true (0 : ℝ) =
      Except.ok
        { useSP := true, bestGoal := 0, numPatterns := 2, inputSize := 3, outputSize := 1,
          targList := [[1], [-1]], numTrnEvents := [5, 6], numValEvents := [2, 3],
          epochValOutputs := [[0, 0], [0, 0, 0]] } ∧
    sp Real.sqrt 2001
      { useSP := true, bestGoal := 0, numPatterns := 2, inputSize := 3, outputSize := 1,
        targList := [[1], [-1]], numTrnEvents := [5, 6], numValEvents := [2, 3],
        epochValOutputs := [[1, 1], [-1, -1, -1]] } = some 1 :=
  have hsqrt : ∀ x : ℝ, 0 ≤ x → x ≤ 1 → 0 ≤ Real.sqrt x ∧ Real.sqrt x ≤ 1 :=
    fun x _ h1 => ⟨Real.sqrt_nonneg x, Real.sqrt_le_one.2 h1⟩
  have hc : construct [⟨3, 5⟩, ⟨3, 6⟩] [⟨3, 2⟩, ⟨3, 3⟩] true (0 : ℝ) =
      Except.ok
        { useSP := true, bestGoal := 0, numPatterns := 2, inputSize := 3, outputSize := 1,
          targList := [[1], [-1]], numTrnEvents := [5, 6], numValEvents := [2, 3],
          epochValOutputs := [[0, 0], [0, 0, 0]] } := by
    simp [construct, constructLoop, mkTarget, outputSizeOf, UINT_RANGE, List.replicate]
  ⟨hsqrt, Real.sqrt_one, hc,
    (sp_perfect_separation Real.sqrt hsqrt Real.sqrt_one _ _ _ _ hc rfl (by decide) (by decide)
      [[1, 1], [-1, -1, -1]]
      (fun i hi => by
        have hi2 : i < 2 := hi
        interval_cases i <;> rfl)
      (fun i hi => by
        have hi3 : i < 3 := hi
        interval_cases i <;> rfl)
      2001 (le_refl _)).2.1⟩

end PatternRecognition
